import Mathlib

/-!
Verification of the velld backup orchestrator (Go) against its
natural-language specification, via a shallow embedding in Lean 4.

Conventions of the embedding:
* Go strings are Lean `String`s; byte/rune scanning loops are mirrored as
  recursions over `String.data` (`List Char`).
* Machine integers (`int`, `int64`) are Lean `Int`s (no overflow is relevant
  to any modelled computation).
* `time.Time` values are modelled as `Int` (seconds); a day is 86400 seconds.
* Fallible external calls (SQL queries, the dump/restore subprocess, the S3
  API, `os.Stat`/`os.Remove`, the crypto service) are modelled as explicit
  outcome parameters (`Except`/`Option`/`Bool` oracles) threaded through the
  translated control flow, so that every path of the Go functions is a path
  of the Lean functions.
* The local filesystem and the S3 bucket are modelled as lists of paths /
  object keys; the backup-record table as a list of records.
-/

namespace Velld

/-! ### Go string primitives (strings.Contains, strings.Split) -/

/-- `startsWith s sub`: does the char list `s` start with `sub`
(Go `strings.HasPrefix` on rune lists)? -/
def startsWith : List Char → List Char → Bool
  | _, [] => true
  | [], _ :: _ => false
  | b :: bs, a :: as => a = b && startsWith bs as

/-- Go `strings.Contains` on char lists. -/
def containsSub : List Char → List Char → Bool
  | [], sub => startsWith [] sub
  | s@(_ :: rest), sub => startsWith s sub || containsSub rest sub

/-- Go `strings.Contains(s, sub)`. -/
def strContains (s sub : String) : Bool := containsSub s.data sub.data

/-- Helper for `goSplitChar`: accumulates the current segment. -/
def splitOnCharAux (sep : Char) (acc : List Char) : List Char → List String
  | [] => [String.mk acc]
  | c :: rest =>
    if c = sep then String.mk acc :: splitOnCharAux sep [] rest
    else splitOnCharAux sep (acc ++ [c]) rest

/-- Go `strings.Split(s, sep)` for a one-character separator: all segments,
empty segments included; always at least one segment. -/
def goSplitChar (s : String) (sep : Char) : List String :=
  splitOnCharAux sep [] s.data

/-! ### backup_restore.go: PostgreSQL restore output validation -/

/-- The non-critical patterns of `isCriticalPostgreSQLError`
(backup_restore.go). -/
def nonCriticalPatterns : List String :=
  ["WARNING:", "must be member of role", "no privileges", "NOTICE:"]

/-- `isCriticalPostgreSQLError` (backup_restore.go): a line is non-critical
iff it contains one of the `nonCriticalPatterns`; every other line is
critical. -/
def isCriticalPostgreSQLError (line : String) : Bool :=
  nonCriticalPatterns.all (fun pat => !(strContains line pat))

/-- Result of `validatePostgreSQLRestore`: success, the target-not-empty
error, or a restore failure carrying the number of critical errors. -/
inductive RestoreResult where
  | ok : RestoreResult
  | targetNotEmpty : RestoreResult
  | failed (nErrors : Nat) : RestoreResult
deriving DecidableEq

/-- `validatePostgreSQLRestore` (backup_restore.go): split the combined tool
output into lines; collect the lines that contain `ERROR:` and are critical;
if any critical line contains `already exists` report the target-not-empty
error, else report a failure with the number of critical lines; with no
critical line the restore succeeds.  `cmdErr` models the subprocess
exit-status error; the Go function receives it and never reads it. -/
def validatePostgreSQLRestore (output : String) (_cmdErr : Bool) : RestoreResult :=
  let lines := goSplitChar output '\n'
  let criticalErrors := lines.filter
    (fun line => strContains line "ERROR:" && isCriticalPostgreSQLError line)
  if criticalErrors.length > 0 then
    if criticalErrors.any (fun l => strContains l "already exists") then
      RestoreResult.targetNotEmpty
    else
      RestoreResult.failed criticalErrors.length
  else
    RestoreResult.ok

/-! ### backup_service.go: pagination clamping -/

/-- `BackupListOptions` (backup models; fields as used by
`GetAllBackupsWithPagination` and the HTTP handler). -/
structure BackupListOptions where
  userId : String
  limit : Int
  offset : Int
  search : String
deriving DecidableEq

/-- `BackupService.GetAllBackupsWithPagination` (backup_service.go): the
clamping performed on the options before the repository is consulted.  The
returned value is the option record the store query receives. -/
def GetAllBackupsWithPagination (opts : BackupListOptions) : BackupListOptions :=
  let opts1 := if opts.limit ≤ 0 then { opts with limit := 10 } else opts
  let opts2 := if opts1.limit > 100 then { opts1 with limit := 100 } else opts1
  if opts2.offset < 0 then { opts2 with offset := 0 } else opts2

/-! ### Data model (connection models, backup models) -/

/-- `StoredConnection` (connection models): the connection record as held in
memory after a repository read, and as JSON-encoded by the HTTP handlers.
`created_at`/`updated_at` are string fields in the Go struct. -/
structure StoredConnection where
  id : String
  name : String
  type : String
  host : String
  port : Int
  username : String
  password : String
  databaseName : String
  selectedDatabases : List String
  ssl : Bool
  sshEnabled : Bool
  sshHost : String
  sshPort : Int
  sshUsername : String
  sshPassword : String
  sshPrivateKey : String
  s3CleanupOnRetention : Bool
  createdAt : String
  updatedAt : String
  lastConnectedAt : Option Int
  userId : String
  status : String
  databaseSize : Int
deriving DecidableEq

/-- `Backup` (backup models): one dump attempt, as persisted in the
`backups` table. -/
structure Backup where
  id : String
  connectionId : String
  scheduleId : Option String
  status : String
  path : String
  s3ObjectKey : Option String
  size : Int
  startedTime : Int
  completedTime : Option Int
  createdAt : Int
  updatedAt : Int
deriving DecidableEq

/-- `UserSettings` (settings/model.go): the fields consumed by the backup
engine.  Optional string fields are `*string` in Go. -/
structure UserSettings where
  s3Enabled : Bool
  s3Endpoint : Option String
  s3Region : Option String
  s3Bucket : Option String
  s3AccessKey : Option String
  s3SecretKey : Option String
  s3UseSSL : Bool
  s3PathPrefix : Option String
  s3PurgeLocal : Bool
deriving DecidableEq

/-! ### Connection repository (part_007): selected_databases encoding and
`GetConnection` decryption -/

/-- `ConnectionRepository.UpdateSelectedDatabases` (connection repository):
the comma-joined string persisted for a list of database names.  Mirrors the
Go loop: empty list stores the empty string; otherwise names joined by `,`
with no quoting. -/
def joinSelectedDatabases (databases : List String) : String :=
  match databases with
  | [] => ""
  | d :: ds => ds.foldl (fun acc db => acc ++ "," ++ db) d

/-- The scanning loop of `ConnectionRepository.GetConnection` that parses the
persisted `selected_databases` string: segments are the maximal runs between
commas, and empty segments are skipped (`if end > i`).  `acc` is the current
segment being accumulated, in order. -/
def scanSelectedDatabases (acc : List Char) : List Char → List String
  | [] => if acc.isEmpty then [] else [String.mk acc]
  | c :: rest =>
    if c = ',' then
      if acc.isEmpty then scanSelectedDatabases [] rest
      else String.mk acc :: scanSelectedDatabases [] rest
    else scanSelectedDatabases (acc ++ [c]) rest

/-- `ConnectionRepository.GetConnection`, selected-databases part: the
`COALESCE`d column value is parsed only when non-empty; otherwise the field
stays nil (the empty list). -/
def parseSelectedDatabases (s : String) : List String :=
  if s = "" then [] else scanSelectedDatabases [] s.data

/-- One row of the `connections` table as scanned by
`ConnectionRepository.GetConnection`: credential columns hold ciphertext;
`ssh_password`/`ssh_private_key` are nullable; `selected_databases` is read
through `COALESCE(selected_databases, '')`; the integer flag columns are
modelled post-conversion as `Bool`s. -/
structure ConnectionRow where
  id : String
  name : String
  type : String
  host : String
  port : Int
  encryptedUsername : String
  encryptedPassword : String
  databaseName : String
  ssl : Bool
  databaseSize : Int
  createdAt : String
  updatedAt : String
  lastConnectedAt : Option Int
  userId : String
  status : String
  sshEnabled : Bool
  sshHost : String
  sshPort : Int
  sshUsername : String
  encryptedSshPassword : Option String
  encryptedSshPrivateKey : Option String
  selectedDatabases : String
  s3CleanupOnRetention : Bool
deriving DecidableEq

/-- The optional-ciphertext decryption step of
`ConnectionRepository.GetConnection`: a NULL or empty column leaves the field
at its zero value `""`; otherwise the ciphertext is decrypted (failure aborts
the whole read). -/
def decryptOptionalField (decrypt : String → Option String) :
    Option String → Except String String
  | none => Except.ok ""
  | some s =>
    if s = "" then Except.ok ""
    else
      match decrypt s with
      | none => Except.error "failed to decrypt field"
      | some v => Except.ok v

/-- `ConnectionRepository.GetConnection` (connection repository): scan the
row, parse `selected_databases`, then decrypt username, password and — when
present and non-empty — the SSH password and SSH private key.  The returned
`StoredConnection` carries the decrypted plaintext credentials. -/
def repoGetConnection (decrypt : String → Option String) (row : ConnectionRow) :
    Except String StoredConnection :=
  match decrypt row.encryptedUsername with
  | none => Except.error "failed to decrypt username"
  | some username =>
  match decrypt row.encryptedPassword with
  | none => Except.error "failed to decrypt password"
  | some password =>
  match decryptOptionalField decrypt row.encryptedSshPassword with
  | Except.error e => Except.error e
  | Except.ok sshPassword =>
  match decryptOptionalField decrypt row.encryptedSshPrivateKey with
  | Except.error e => Except.error e
  | Except.ok sshPrivateKey =>
  Except.ok
    { id := row.id
      name := row.name
      type := row.type
      host := row.host
      port := row.port
      username := username
      password := password
      databaseName := row.databaseName
      selectedDatabases := parseSelectedDatabases row.selectedDatabases
      ssl := row.ssl
      sshEnabled := row.sshEnabled
      sshHost := row.sshHost
      sshPort := row.sshPort
      sshUsername := row.sshUsername
      sshPassword := sshPassword
      sshPrivateKey := sshPrivateKey
      s3CleanupOnRetention := row.s3CleanupOnRetention
      createdAt := row.createdAt
      updatedAt := row.updatedAt
      lastConnectedAt := row.lastConnectedAt
      userId := row.userId
      status := row.status
      databaseSize := row.databaseSize }

/-- `ConnectionHandler.GetConnection` (connection handler): on repository
success the handler JSON-encodes the `StoredConnection` as the response body
unchanged — every struct field, the credential fields included, is
serialized (`json.NewEncoder(w).Encode(connection)`; the struct tags carry
no omission for `password`, `ssh_password`, `ssh_private_key`). -/
def handlerGetConnection (decrypt : String → Option String) (row : ConnectionRow) :
    Except String StoredConnection :=
  repoGetConnection decrypt row

/-! ### backup_service.go: S3 upload after dump (`uploadToS3IfEnabled`) -/

/-- Outcomes of the external calls made by `uploadToS3IfEnabled`:
settings fetch, secret-key decryption, `NewS3Storage` (client creation and
bucket check/creation), the `PutObject` upload (returning the object key on
success), and the `os.Remove` purge of the local file. -/
structure S3Env where
  settings : Except String UserSettings
  decryptOk : Bool
  clientOk : Bool
  uploadResult : Except String String
  removeOk : Bool

/-- `BackupService.uploadToS3IfEnabled` (backup_service.go).  Returns the
(possibly updated) backup record, the resulting local filesystem (a list of
existing paths), and the error result handed back to the caller.  Control
flow mirrors the Go function: missing settings or configuration fields,
decryption failure, client-creation failure and upload failure each return an
error without touching the record or the filesystem; on upload success the
object key is recorded on the backup and, iff `s3_purge_local` is set, the
local file is removed — a failed removal is only a warning. -/
def uploadToS3IfEnabled (env : S3Env) (backup : Backup) (fs : List String) :
    Backup × List String × Except String Unit :=
  match env.settings with
  | Except.error e => (backup, fs, Except.error ("failed to get user settings: " ++ e))
  | Except.ok us =>
    if !us.s3Enabled then (backup, fs, Except.ok ())
    else if us.s3Endpoint.getD "" = "" then
      (backup, fs, Except.error "S3 endpoint not configured")
    else if us.s3Bucket.getD "" = "" then
      (backup, fs, Except.error "S3 bucket not configured")
    else if us.s3AccessKey.getD "" = "" then
      (backup, fs, Except.error "S3 access key not configured")
    else if us.s3SecretKey.getD "" = "" then
      (backup, fs, Except.error "S3 secret key not configured")
    else if !env.decryptOk then
      (backup, fs, Except.error "failed to decrypt S3 secret key")
    else if !env.clientOk then
      (backup, fs, Except.error "failed to create S3 storage client")
    else
      match env.uploadResult with
      | Except.error e => (backup, fs, Except.error ("failed to upload backup to S3: " ++ e))
      | Except.ok objectKey =>
        let backup1 := { backup with s3ObjectKey := some objectKey }
        let fs1 :=
          if us.s3PurgeLocal then
            if env.removeOk then fs.erase backup.path else fs
          else fs
        (backup1, fs1, Except.ok ())

/-! ### backup_service.go: single-database backup -/

/-- The store-and-filesystem state threaded through a backup run: the
`backups` table and the set of existing local files. -/
structure World where
  store : List Backup
  fs : List String
deriving DecidableEq

/-- Engines with a dump builder in `createSingleDatabaseBackup`'s `switch`
(backup_service.go). -/
def supportedBackupTypes : List String :=
  ["postgresql", "mysql", "mariadb", "mongodb", "redis"]

/-- Outcomes of the external calls made by `createSingleDatabaseBackup`:
tool verification, SSH tunnel setup, backup-folder creation, whether the
command builder found the tool on PATH, the dump subprocess itself
(`cmd.CombinedOutput`, carrying its combined output on failure), the
`os.Stat` of the produced file (its size on success), the S3 leg, and the
`backupRepo.CreateBackup` insert. -/
structure DumpEnv where
  toolOk : Bool
  tunnelOk : Bool
  mkdirOk : Bool
  cmdFound : Bool
  dumpResult : Except String Unit
  statSize : Option Int
  s3 : S3Env
  persistOk : Bool
  backupId : String
  now : Int

/-- The in-memory backup record built by `createSingleDatabaseBackup` before
the dump command runs (backup_service.go): `status` starts as
`in_progress`; nothing is persisted at this point. -/
def initialBackupRecord (env : DumpEnv) (conn : StoredConnection)
    (backupPath : String) : Backup :=
  { id := env.backupId
    connectionId := conn.id
    scheduleId := none
    status := "in_progress"
    path := backupPath
    s3ObjectKey := none
    size := 0
    startedTime := env.now
    completedTime := none
    createdAt := env.now
    updatedAt := env.now }

/-- `BackupService.createSingleDatabaseBackup` (backup_service.go): verify
the dump tool, open the SSH tunnel if needed, create the connection folder,
build the in-memory record with `status=in_progress`, run the dump command
(on non-zero exit the error is returned to the caller and nothing has been
persisted), stat the produced file, flip the record to `completed` with a
completion time, attempt the S3 upload (failure is only a warning), and only
then insert the record into the backup store. -/
def createSingleDatabaseBackup (env : DumpEnv) (conn : StoredConnection)
    (dbName : String) (backupPath : String) (w : World) :
    World × Except String Backup :=
  if !env.toolOk then (w, Except.error "backup tool verification failed")
  else if !env.tunnelOk then (w, Except.error "failed to setup SSH tunnel")
  else if !env.mkdirOk then
    (w, Except.error "failed to create connection backup folder")
  else
    let backup0 := initialBackupRecord env conn backupPath
    if !(supportedBackupTypes.contains conn.type) then
      (w, Except.error ("unsupported database type for backup: " ++ conn.type))
    else if !env.cmdFound then
      (w, Except.error ("backup tool not found for " ++ conn.type))
    else
      match env.dumpResult with
      | Except.error msg =>
        (w, Except.error ("backup failed for " ++ conn.type ++ " database " ++
          dbName ++ " - " ++ msg))
      | Except.ok _ =>
        let fs1 := backupPath :: w.fs
        match env.statSize with
        | none => ({ w with fs := fs1 }, Except.error "failed to get backup file info")
        | some sz =>
          let backup1 := { backup0 with
            size := sz, status := "completed", completedTime := some env.now }
          let up := uploadToS3IfEnabled env.s3 backup1 fs1
          if env.persistOk then
            ({ store := w.store ++ [up.1], fs := up.2.1 }, Except.ok up.1)
          else
            ({ w with fs := up.2.1 }, Except.error "failed to save backup")

/-! ### backup_service.go: multi-database backup -/

/-- Per-database outcomes for one iteration of the
`createMultiDatabaseBackup` loop. -/
structure DbDumpEnv where
  cmdFound : Bool
  dumpOk : Bool
  statSize : Option Int
  s3 : S3Env
  persistOk : Bool
  backupId : String

/-- One iteration of the `createMultiDatabaseBackup` loop
(backup_service.go): on any failure (tool missing, dump error, stat error,
insert error) the database is recorded as failed (`none`) and the loop
continues; a successful iteration builds a `completed` record, attempts the
S3 upload (warning only) and inserts the record. -/
def processOneDatabase (conn : StoredConnection) (startTime now : Int)
    (folder timestamp : String) (w : World) (dbName : String)
    (env : DbDumpEnv) : World × Option Backup :=
  let backupPath := folder ++ "/" ++ dbName ++ "_" ++ timestamp ++ ".sql"
  if !env.cmdFound then (w, none)
  else if !env.dumpOk then (w, none)
  else
    let fs1 := backupPath :: w.fs
    match env.statSize with
    | none => ({ w with fs := fs1 }, none)
    | some sz =>
      let backup0 : Backup :=
        { id := env.backupId
          connectionId := conn.id
          scheduleId := none
          status := "completed"
          path := backupPath
          s3ObjectKey := none
          size := sz
          startedTime := startTime
          completedTime := some now
          createdAt := now
          updatedAt := now }
      let up := uploadToS3IfEnabled env.s3 backup0 fs1
      if env.persistOk then
        ({ store := w.store ++ [up.1], fs := up.2.1 }, some up.1)
      else
        ({ w with fs := up.2.1 }, none)

/-- The `for _, dbName := range conn.SelectedDatabases` loop of
`createMultiDatabaseBackup`, with each selected database paired with its
external outcomes; `acc` collects the successful backups in order. -/
def runMultiDumps (conn : StoredConnection) (startTime now : Int)
    (folder timestamp : String) (w : World) (acc : List Backup) :
    List (String × DbDumpEnv) → World × List Backup
  | [] => (w, acc)
  | (dbName, env) :: rest =>
    let pr := processOneDatabase conn startTime now folder timestamp w dbName env
    runMultiDumps conn startTime now folder timestamp pr.1 (acc ++ pr.2.toList) rest

/-- `BackupService.createMultiDatabaseBackup` (backup_service.go): verify
tools once, open the tunnel once, create the connection folder, then run the
per-database loop; the call errors iff no sub-dump succeeded, and otherwise
returns the first successful backup.  (In the source the engine dispatch
sits inside the loop and aborts on the first database when the engine is
unsupported; the check is hoisted here, which agrees with the source
whenever the selected list is non-empty.) -/
def createMultiDatabaseBackup (conn : StoredConnection) (startTime now : Int)
    (folder timestamp : String) (toolOk tunnelOk mkdirOk : Bool)
    (dbs : List (String × DbDumpEnv)) (w : World) :
    World × Except String Backup :=
  if !toolOk then (w, Except.error "backup tool verification failed")
  else if !tunnelOk then (w, Except.error "failed to setup SSH tunnel")
  else if !mkdirOk then
    (w, Except.error "failed to create connection backup folder")
  else if !(supportedBackupTypes.contains conn.type) then
    (w, Except.error ("unsupported database type for backup: " ++ conn.type))
  else
    let run := runMultiDumps conn startTime now folder timestamp w [] dbs
    match run.2 with
    | [] => (run.1, Except.error "all database backups failed")
    | b :: _ => (run.1, Except.ok b)

/-! ### backup_service.go: on-demand rehydration (`ensureBackupFileAvailable`) -/

/-- Go `filepath.Base` for the slash-joined paths produced by the spool:
the last slash-separated component. -/
def baseName (p : String) : String :=
  (goSplitChar p '/').getLastD p

/-- Outcomes of the external calls made by `ensureBackupFileAvailable`:
settings fetch, secret-key decryption, `NewS3Storage`, creation of the
`<tmp>/velld-s3-downloads` directory, the `GetObject` download, and the
process temp directory (`os.TempDir()`). -/
structure EnsureEnv where
  settings : Except String UserSettings
  decryptOk : Bool
  clientOk : Bool
  mkdirOk : Bool
  downloadOk : Bool
  tmpDir : String

/-- `BackupService.ensureBackupFileAvailable` (backup_service.go): if the
local file exists return it with `is_temp=false`; else, with no (or empty)
S3 object key, fail; else walk the S3 configuration checks and download the
object to `<tmp>/velld-s3-downloads/<basename(local_path)>`, returning that
path with `is_temp=true`; any failing step fails the whole read. -/
def ensureBackupFileAvailable (env : EnsureEnv) (backup : Backup)
    (fs : List String) : Except String (String × Bool) :=
  if fs.contains backup.path then Except.ok (backup.path, false)
  else if backup.s3ObjectKey.getD "" = "" then
    Except.error "backup file not found locally and no S3 object key available"
  else
    match env.settings with
    | Except.error e => Except.error ("failed to get user settings: " ++ e)
    | Except.ok us =>
      if !us.s3Enabled then
        Except.error "backup file not found locally and S3 is not enabled"
      else if us.s3Endpoint.getD "" = "" then Except.error "S3 endpoint not configured"
      else if us.s3Bucket.getD "" = "" then Except.error "S3 bucket not configured"
      else if us.s3AccessKey.getD "" = "" then Except.error "S3 access key not configured"
      else if us.s3SecretKey.getD "" = "" then Except.error "S3 secret key not configured"
      else if !env.decryptOk then Except.error "failed to decrypt S3 secret key"
      else if !env.clientOk then Except.error "failed to create S3 storage client"
      else if !env.mkdirOk then Except.error "failed to create temp directory"
      else if !env.downloadOk then Except.error "failed to download backup from S3"
      else
        Except.ok (env.tmpDir ++ "/velld-s3-downloads/" ++ baseName backup.path, true)

/-! ### backup_repository.go / scheduler file: retention GC -/

/-- `BackupRepository.GetBackupsOlderThan` (backup_repository.go): the rows
of the `backups` table with the given connection, `created_at` before the
cutoff and `status = 'completed'`. -/
def GetBackupsOlderThan (store : List Backup) (connectionID : String)
    (cutoff : Int) : List Backup :=
  store.filter (fun b =>
    b.connectionId = connectionID && b.createdAt < cutoff && b.status = "completed")

/-- The `!userSettings.S3Enabled || endpoint/bucket/access/secret missing`
configuration conjunction checked by `cleanupOldBackups` before building an
S3 client. -/
def s3FullyConfigured (us : UserSettings) : Bool :=
  us.s3Enabled && us.s3Endpoint.getD "" ≠ "" && us.s3Bucket.getD "" ≠ "" &&
  us.s3AccessKey.getD "" ≠ "" && us.s3SecretKey.getD "" ≠ ""

/-- Outcomes of the external calls made by `cleanupOldBackups`: the
connection read, the settings read, the secret-key decryption, the client
creation, and per-object/per-file/per-row success of the three delete
operations. -/
structure GcEnv where
  connResult : Except String StoredConnection
  settingsResult : Except String UserSettings
  decryptOk : Bool
  clientOk : Bool
  s3DeleteOk : String → Bool
  localRemoveOk : String → Bool
  recordDeleteOk : String → Bool

/-- State touched by retention GC: the `backups` table, the local files and
the S3 object keys. -/
structure GcWorld where
  store : List Backup
  fs : List String
  s3Objects : List String
deriving DecidableEq

/-- Whether `cleanupOldBackups` ends up with a usable S3 client: settings
fetched, S3 enabled and fully configured, secret decrypted, client built. -/
def gcS3Available (env : GcEnv) : Bool :=
  match env.settingsResult with
  | Except.error _ => false
  | Except.ok us => s3FullyConfigured us && env.decryptOk && env.clientOk

/-- The per-backup body of the `cleanupOldBackups` loop: delete the S3
object when the key is set, the client was built and the connection has
`s3_cleanup_on_retention` (a failed delete only warns); delete the local
file if it exists (a failed delete only warns); delete the backup row (a
failed delete only logs).  No step aborts the others. -/
def gcStep (env : GcEnv) (conn : StoredConnection) (s3Available : Bool)
    (wi : GcWorld) (b : Backup) : GcWorld :=
  let s3Objects1 :=
    if b.s3ObjectKey.getD "" ≠ "" && s3Available && conn.s3CleanupOnRetention then
      if env.s3DeleteOk (b.s3ObjectKey.getD "") then
        wi.s3Objects.erase (b.s3ObjectKey.getD "")
      else wi.s3Objects
    else wi.s3Objects
  let fs1 :=
    if b.path ∈ wi.fs then
      if env.localRemoveOk b.path then wi.fs.erase b.path else wi.fs
    else wi.fs
  let store1 :=
    if env.recordDeleteOk b.id then wi.store.filter (fun x => x.id ≠ b.id)
    else wi.store
  { store := store1, fs := fs1, s3Objects := s3Objects1 }

/-- `BackupService.cleanupOldBackups` (scheduler file): compute the cutoff
`now - retention_days` days, fetch the old completed backups, bail out
(changing nothing) when there are none or the connection read fails, decide
whether an S3 client is available, and run the per-backup cleanup loop.
A settings-read/decrypt/client failure only disables the S3 leg; local
cleanup continues. -/
def cleanupOldBackups (env : GcEnv) (connectionID : String)
    (retentionDays : Int) (now : Int) (w : GcWorld) : GcWorld :=
  let cutoffTime := now - retentionDays * 86400
  let oldBackups := GetBackupsOlderThan w.store connectionID cutoffTime
  if oldBackups.isEmpty then w
  else
    match env.connResult with
    | Except.error _ => w
    | Except.ok conn =>
      oldBackups.foldl (gcStep env conn (gcS3Available env)) w

/-! ### Scheduler file: `ScheduleBackup` upsert -/

/-- `BackupSchedule` (backup models): the durable cron entry. -/
structure BackupSchedule where
  id : String
  connectionId : String
  enabled : Bool
  cronSchedule : String
  retentionDays : Int
  nextRunTime : Option Int
  lastBackupTime : Option Int
  createdAt : Int
  updatedAt : Int
deriving DecidableEq

/-- `ScheduleBackupRequest` (backup models): the fields consumed by
`ScheduleBackup`. -/
structure ScheduleBackupRequest where
  connectionId : String
  cronSchedule : String
  retentionDays : Int

/-- An abstract parsed 6-field cron schedule (robfig/cron with seconds):
only its `Next` function is observable. -/
structure CronSched where
  next : Int → Int

/-- The scheduler state touched by `ScheduleBackup`: the
`backup_schedules` table and the `scheduleID → cron entry ID` map. -/
structure SchedulerState where
  schedules : List BackupSchedule
  cronEntries : List (String × Nat)

/-- `BackupService.ScheduleBackup` (scheduler file): look up an existing
schedule for the connection (`GetBackupSchedule`), parse the cron expression
(an invalid expression is rejected with an error, changing nothing); if a
schedule exists, re-enable it and overwrite its cron expression, retention
days and `next_run_time = Next(cron, now)`, persist, and swap the cron entry;
else create a fresh schedule with those fields and register its entry.
`parse` is the 6-field cron parser; `newId`/`newEntryId` are the fresh UUID
and the cron manager's new entry id. -/
def ScheduleBackup (parse : String → Option CronSched) (now : Int)
    (newId : String) (newEntryId : Nat) (st : SchedulerState)
    (req : ScheduleBackupRequest) : SchedulerState × Except String Unit :=
  let existingSchedule := st.schedules.find? (fun s => s.connectionId = req.connectionId)
  match parse req.cronSchedule with
  | none => (st, Except.error "invalid cron schedule")
  | some sched =>
    let nextRun := sched.next now
    match existingSchedule with
    | some ex =>
      let updated := { ex with
        enabled := true
        cronSchedule := req.cronSchedule
        retentionDays := req.retentionDays
        nextRunTime := some nextRun
        updatedAt := now }
      let schedules1 := st.schedules.map (fun s => if s.id = ex.id then updated else s)
      let entries1 := st.cronEntries.filter (fun e => e.1 ≠ ex.id) ++ [(ex.id, newEntryId)]
      ({ schedules := schedules1, cronEntries := entries1 }, Except.ok ())
    | none =>
      let backupSchedule : BackupSchedule :=
        { id := newId
          connectionId := req.connectionId
          enabled := true
          cronSchedule := req.cronSchedule
          retentionDays := req.retentionDays
          nextRunTime := some nextRun
          lastBackupTime := none
          createdAt := now
          updatedAt := now }
      ({ schedules := st.schedules ++ [backupSchedule]
         cronEntries := st.cronEntries ++ [(newId, newEntryId)] }, Except.ok ())

/-! ## Theorems -/

/-! ### C7: PostgreSQL restore output classification -/

/-- Spec-side criticality: among the output lines, exactly those containing
`ERROR:` and none of the four non-critical markers. -/
def specCriticalLine (line : String) : Bool :=
  strContains line "ERROR:" &&
  !(strContains line "WARNING:" || strContains line "NOTICE:" ||
    strContains line "must be member of role" || strContains line "no privileges")

/-- The critical lines of a restore output, per the spec-side
classification. -/
def criticalLines (output : String) : List String :=
  (goSplitChar output '\n').filter specCriticalLine

/-- The filter used by `validatePostgreSQLRestore` agrees with the spec-side
classification on every line. -/
theorem specCriticalLine_eq (line : String) :
    (strContains line "ERROR:" && isCriticalPostgreSQLError line) = specCriticalLine line := by
  simp only [isCriticalPostgreSQLError, nonCriticalPatterns, List.all_cons, List.all_nil,
    specCriticalLine, Bool.and_true]
  cases strContains line "ERROR:" <;> cases strContains line "WARNING:" <;>
    cases strContains line "NOTICE:" <;> cases strContains line "must be member of role" <;>
      cases strContains line "no privileges" <;> rfl

/-- **C7.** For every PostgreSQL restore, the tool output is classified line
by line: lines containing any of `WARNING:`, `NOTICE:`, `must be member of
role`, or `no privileges` are non-critical and ignored even when the process
exits non-zero (the result is stated for an arbitrary exit error `cmdErr`);
among the remaining lines, those containing `ERROR:` are critical; if any
critical line contains `already exists` the restore reports the
target-not-empty error, otherwise it reports a restore-failure error carrying
the number of critical errors, and with no critical lines the restore
succeeds. -/
theorem validatePostgreSQLRestore_classification (output : String) (cmdErr : Bool) :
    (∀ l ∈ goSplitChar output '\n',
        (strContains l "WARNING:" || strContains l "NOTICE:" ||
         strContains l "must be member of role" || strContains l "no privileges") = true →
        l ∉ criticalLines output) ∧
    (validatePostgreSQLRestore output cmdErr = RestoreResult.ok ↔ criticalLines output = []) ∧
    (validatePostgreSQLRestore output cmdErr = RestoreResult.targetNotEmpty ↔
       ∃ l ∈ criticalLines output, strContains l "already exists") ∧
    (∀ n, validatePostgreSQLRestore output cmdErr = RestoreResult.failed n ↔
       criticalLines output ≠ [] ∧ n = (criticalLines output).length ∧
       ∀ l ∈ criticalLines output, ¬ strContains l "already exists") := by
  have hfe : (goSplitChar output '\n').filter
      (fun line => strContains line "ERROR:" && isCriticalPostgreSQLError line) =
      criticalLines output :=
    List.filter_congr (fun l _ => specCriticalLine_eq l)
  refine ⟨?_, ?_⟩
  · intro l _ hm hmem
    have hc : specCriticalLine l = true := List.of_mem_filter hmem
    simp only [specCriticalLine, Bool.and_eq_true, Bool.not_eq_true'] at hc
    rw [hc.2] at hm
    exact Bool.false_ne_true hm
  · simp only [validatePostgreSQLRestore, hfe]
    by_cases hnil : criticalLines output = []
    · simp [hnil]
    · have hlen : 0 < (criticalLines output).length := List.length_pos.mpr hnil
      rw [if_pos (by omega)]
      by_cases hany : (criticalLines output).any (fun l => strContains l "already exists") = true
      · rw [if_pos hany]
        simp only [List.any_eq_true] at hany
        refine ⟨?_, ?_, ?_⟩
        · constructor
          · intro h; simp at h
          · intro h; exact absurd h hnil
        · exact ⟨fun _ => hany, fun _ => rfl⟩
        · intro n
          constructor
          · intro h; simp at h
          · rintro ⟨-, -, hall⟩
            obtain ⟨l, hl, hcon⟩ := hany
            exact absurd hcon (hall l hl)
      · rw [if_neg hany]
        simp only [List.any_eq_true, not_exists] at hany
        refine ⟨?_, ?_, ?_⟩
        · constructor
          · intro h; simp at h
          · intro h; exact absurd h hnil
        · constructor
          · intro h; simp at h
          · rintro ⟨l, hl, hcon⟩
            exact absurd ⟨hl, hcon⟩ (hany l)
        · intro n
          constructor
          · intro h
            refine ⟨hnil, ?_, ?_⟩
            · exact ((RestoreResult.failed.injEq _ _).mp h).symm
            · intro l hl hcon
              exact hany l ⟨hl, hcon⟩
          · rintro ⟨-, hn, -⟩
            rw [hn]

/-! ### C10: pagination clamping -/

/-- **C10.** For every input to the paginated backup listing, the effective
query parameters are clamped before the store is consulted: a limit of 0 or
less becomes 10, a limit above 100 becomes 100, a negative offset becomes 0,
an in-range limit and offset pass through unchanged, and the effective
options always satisfy `1 ≤ limit ≤ 100` and `0 ≤ offset` — the listing
never requests more than 100 records and never uses a negative offset. -/
theorem GetAllBackupsWithPagination_clamps (opts : BackupListOptions) :
    1 ≤ (GetAllBackupsWithPagination opts).limit ∧
    (GetAllBackupsWithPagination opts).limit ≤ 100 ∧
    0 ≤ (GetAllBackupsWithPagination opts).offset ∧
    (opts.limit ≤ 0 → (GetAllBackupsWithPagination opts).limit = 10) ∧
    (100 < opts.limit → (GetAllBackupsWithPagination opts).limit = 100) ∧
    (0 < opts.limit → opts.limit ≤ 100 → (GetAllBackupsWithPagination opts).limit = opts.limit) ∧
    (opts.offset < 0 → (GetAllBackupsWithPagination opts).offset = 0) ∧
    (0 ≤ opts.offset → (GetAllBackupsWithPagination opts).offset = opts.offset) ∧
    (GetAllBackupsWithPagination opts).userId = opts.userId ∧
    (GetAllBackupsWithPagination opts).search = opts.search := by
  simp only [GetAllBackupsWithPagination]
  split_ifs <;> simp_all <;> omega

/-- Witness for C10 at concrete inputs: a non-positive limit becomes 10, a
negative offset becomes 0, an oversized limit becomes 100. -/
theorem GetAllBackupsWithPagination_clamps_witness :
    (GetAllBackupsWithPagination ⟨"u", 0, -1, ""⟩).limit = 10 ∧
    (GetAllBackupsWithPagination ⟨"u", 0, -1, ""⟩).offset = 0 ∧
    (GetAllBackupsWithPagination ⟨"u", 250, 5, "q"⟩).limit = 100 ∧
    (GetAllBackupsWithPagination ⟨"u", 250, 5, "q"⟩).offset = 5 :=
  ⟨(GetAllBackupsWithPagination_clamps ⟨"u", 0, -1, ""⟩).2.2.2.1 (by decide),
   (GetAllBackupsWithPagination_clamps ⟨"u", 0, -1, ""⟩).2.2.2.2.2.2.1 (by decide),
   (GetAllBackupsWithPagination_clamps ⟨"u", 250, 5, "q"⟩).2.2.2.2.1 (by decide),
   (GetAllBackupsWithPagination_clamps ⟨"u", 250, 5, "q"⟩).2.2.2.2.2.2.2.1 (by decide)⟩

/-- Witness for C7 at concrete outputs: a critical `already exists` line
yields the target-not-empty error; a non-critical-only output succeeds even
with a non-zero exit. -/
theorem validatePostgreSQLRestore_classification_witness :
    validatePostgreSQLRestore
      "NOTICE: extension exists\nERROR: relation a already exists" false =
      RestoreResult.targetNotEmpty ∧
    validatePostgreSQLRestore "WARNING: no privileges were granted" true =
      RestoreResult.ok :=
  ⟨(validatePostgreSQLRestore_classification
      "NOTICE: extension exists\nERROR: relation a already exists" false).2.2.1.mpr
      ⟨"ERROR: relation a already exists", by decide, by decide⟩,
   (validatePostgreSQLRestore_classification
      "WARNING: no privileges were granted" true).2.1.mpr (by decide)⟩

/-! ### C2: secrets in the `GetConnection` API response -/

/-- The identity vault used for concrete scenarios: decryption undoes an
identity encryption, so ciphertext and plaintext coincide. -/
def idDecrypt : String → Option String := fun s => some s

/-- A concrete `connections` row: stored (identity-encrypted) DB password
`hunter2`, SSH password `sshpw` and SSH private key `PRIVKEY`. -/
def rowC2 : ConnectionRow :=
  { id := "c-1", name := "pg1", type := "postgresql", host := "db.local",
    port := 5432, encryptedUsername := "admin", encryptedPassword := "hunter2",
    databaseName := "shop", ssl := false, databaseSize := 0, createdAt := "",
    updatedAt := "", lastConnectedAt := none, userId := "u-1",
    status := "connected", sshEnabled := true, sshHost := "jump",
    sshPort := 22, sshUsername := "root", encryptedSshPassword := some "sshpw",
    encryptedSshPrivateKey := some "PRIVKEY", selectedDatabases := "",
    s3CleanupOnRetention := true }

/-- The `StoredConnection` the handler serializes for `rowC2`. -/
def connC2 : StoredConnection :=
  { id := "c-1", name := "pg1", type := "postgresql", host := "db.local",
    port := 5432, username := "admin", password := "hunter2",
    databaseName := "shop", selectedDatabases := [], ssl := false,
    sshEnabled := true, sshHost := "jump", sshPort := 22,
    sshUsername := "root", sshPassword := "sshpw", sshPrivateKey := "PRIVKEY",
    s3CleanupOnRetention := true, createdAt := "", updatedAt := "",
    lastConnectedAt := none, userId := "u-1", status := "connected",
    databaseSize := 0 }

/-- **C2, counterexample.** The claim — that `password`, `ssh_password` and
`ssh_private_key` are empty or absent in every Connection returned from
`GetConnection` — is false: for the concrete stored row `rowC2` the handler
returns the connection with all three sensitive fields holding the decrypted
plaintext, not blanks. -/
theorem handlerGetConnection_leaks_plaintext_secrets :
    handlerGetConnection idDecrypt rowC2 = Except.ok connC2 ∧
    connC2.password = "hunter2" ∧ connC2.sshPassword = "sshpw" ∧
    connC2.sshPrivateKey = "PRIVKEY" ∧
    connC2.password ≠ "" ∧ connC2.sshPassword ≠ "" ∧ connC2.sshPrivateKey ≠ "" :=
  ⟨rfl, rfl, rfl, rfl, by decide, by decide, by decide⟩

/-- **C2, amended.** For every Connection returned from the public
`GetConnection` operation, the sensitive fields are NOT blanked: the response
carries the decrypted stored values — `password` (and `username`) are the
decryptions of the stored ciphertexts, and `ssh_password` /
`ssh_private_key` are the decryptions of their stored ciphertexts whenever
those are present and non-empty (and `""` only when nothing is stored). -/
theorem decryptOptionalField_ok_cases (decrypt : String → Option String)
    (f : Option String) (v : String)
    (h : decryptOptionalField decrypt f = Except.ok v) :
    (f.getD "" = "" ∧ v = "") ∨ (f.getD "" ≠ "" ∧ decrypt (f.getD "") = some v) := by
  rcases f with _ | s
  · simp only [decryptOptionalField, Except.ok.injEq] at h
    exact Or.inl ⟨rfl, h.symm⟩
  · simp only [decryptOptionalField] at h
    by_cases hs : s = ""
    · rw [if_pos hs] at h
      simp only [Except.ok.injEq] at h
      exact Or.inl ⟨by simpa using hs, h.symm⟩
    · rw [if_neg hs] at h
      rcases hd : decrypt s with _ | u <;> rw [hd] at h
      · exact absurd h (by simp)
      · simp only [Except.ok.injEq] at h
        subst h
        exact Or.inr ⟨by simpa using hs, hd⟩

theorem repoGetConnection_returns_decrypted_secrets
    (decrypt : String → Option String) (row : ConnectionRow)
    (conn : StoredConnection) (h : repoGetConnection decrypt row = Except.ok conn) :
    decrypt row.encryptedPassword = some conn.password ∧
    decrypt row.encryptedUsername = some conn.username ∧
    (row.encryptedSshPassword.getD "" ≠ "" →
       decrypt (row.encryptedSshPassword.getD "") = some conn.sshPassword) ∧
    (row.encryptedSshPassword.getD "" = "" → conn.sshPassword = "") ∧
    (row.encryptedSshPrivateKey.getD "" ≠ "" →
       decrypt (row.encryptedSshPrivateKey.getD "") = some conn.sshPrivateKey) ∧
    (row.encryptedSshPrivateKey.getD "" = "" → conn.sshPrivateKey = "") := by
  unfold repoGetConnection at h
  rcases hu : decrypt row.encryptedUsername with _ | username <;> rw [hu] at h
  · exact absurd h (by simp)
  rcases hp : decrypt row.encryptedPassword with _ | password <;> rw [hp] at h
  · exact absurd h (by simp)
  rcases hsp : decryptOptionalField decrypt row.encryptedSshPassword with e | sshPassword <;>
    rw [hsp] at h
  · exact absurd h (by simp)
  rcases hsk : decryptOptionalField decrypt row.encryptedSshPrivateKey with e | sshPrivateKey <;>
    rw [hsk] at h
  · exact absurd h (by simp)
  simp only [Except.ok.injEq] at h
  subst h
  dsimp only
  refine ⟨rfl, rfl, ?_, ?_, ?_, ?_⟩
  · intro hne
    rcases decryptOptionalField_ok_cases decrypt _ _ hsp with ⟨he, -⟩ | ⟨-, hd⟩
    · exact absurd he hne
    · exact hd
  · intro he
    rcases decryptOptionalField_ok_cases decrypt _ _ hsp with ⟨-, hv⟩ | ⟨hne, -⟩
    · exact hv
    · exact absurd he hne
  · intro hne
    rcases decryptOptionalField_ok_cases decrypt _ _ hsk with ⟨he, -⟩ | ⟨-, hd⟩
    · exact absurd he hne
    · exact hd
  · intro he
    rcases decryptOptionalField_ok_cases decrypt _ _ hsk with ⟨-, hv⟩ | ⟨hne, -⟩
    · exact hv
    · exact absurd he hne

/-- Witness for the amended C2 theorem at the concrete row `rowC2`: the
returned structure carries the decrypted DB password, SSH password and SSH
private key. -/
theorem repoGetConnection_returns_decrypted_secrets_witness :
    idDecrypt rowC2.encryptedPassword = some connC2.password ∧
    idDecrypt rowC2.encryptedUsername = some connC2.username ∧
    (rowC2.encryptedSshPassword.getD "" ≠ "" →
       idDecrypt (rowC2.encryptedSshPassword.getD "") = some connC2.sshPassword) ∧
    (rowC2.encryptedSshPassword.getD "" = "" → connC2.sshPassword = "") ∧
    (rowC2.encryptedSshPrivateKey.getD "" ≠ "" →
       idDecrypt (rowC2.encryptedSshPrivateKey.getD "") = some connC2.sshPrivateKey) ∧
    (rowC2.encryptedSshPrivateKey.getD "" = "" → connC2.sshPrivateKey = "") :=
  repoGetConnection_returns_decrypted_secrets idDecrypt rowC2 connC2 rfl

/-! ### C5: `ensureBackupFileAvailable` -/

/-- All conditions under which `ensureBackupFileAvailable` reaches a
successful S3 download: a non-empty object key, S3 enabled and fully
configured in the (successfully fetched) settings, and success of the
decryption, client creation, temp-dir creation and download steps. -/
def s3RehydrateReady (env : EnsureEnv) (backup : Backup) : Bool :=
  backup.s3ObjectKey.getD "" ≠ "" &&
  (match env.settings with
   | Except.error _ => false
   | Except.ok us => s3FullyConfigured us) &&
  env.decryptOk && env.clientOk && env.mkdirOk && env.downloadOk

/-- A successful `ensureBackupFileAvailable` implies either the local file
existed or the full S3 rehydration pipeline was available. -/
theorem ensureBackupFileAvailable_ok_inv (env : EnsureEnv) (backup : Backup)
    (fs : List String) (p : String × Bool)
    (h : ensureBackupFileAvailable env backup fs = Except.ok p) :
    fs.contains backup.path = true ∨ s3RehydrateReady env backup = true := by
  unfold ensureBackupFileAvailable at h
  by_cases hmem : fs.contains backup.path = true
  · exact Or.inl hmem
  · rw [if_neg hmem] at h
    right
    by_cases hkey : backup.s3ObjectKey.getD "" = ""
    · rw [if_pos hkey] at h; exact absurd h (by simp)
    · rw [if_neg hkey] at h
      rcases hset : env.settings with e | us <;> rw [hset] at h
      · exact absurd h (by simp)
      · dsimp only at h
        split_ifs at h with h1 h2 h3 h4 h5 h6 h7 h8 h9 <;> simp at h
        simp at h1 h6 h7 h8 h9
        simp [s3RehydrateReady, s3FullyConfigured, hset, hkey, h1, h2, h3, h4,
          h5, h6, h7, h8, h9]

/-- **C5, amended.** For every backup, `ensureBackupFileAvailable` returns
`(local_path, is_temp=false)` when the file at `local_path` exists;
otherwise, when `s3_object_key` is set, S3 is enabled and fully configured,
and the S3 steps (secret decryption, client creation, temp-dir creation and
the download itself) succeed, it returns
`(<tmp>/velld-s3-downloads/<basename(local_path)>, is_temp=true)`; in every
other case — including a failing download — it fails with an error. -/
theorem ensureBackupFileAvailable_cases (env : EnsureEnv) (backup : Backup)
    (fs : List String) :
    (fs.contains backup.path = true →
       ensureBackupFileAvailable env backup fs = Except.ok (backup.path, false)) ∧
    (fs.contains backup.path = false → s3RehydrateReady env backup = true →
       ensureBackupFileAvailable env backup fs =
         Except.ok (env.tmpDir ++ "/velld-s3-downloads/" ++ baseName backup.path, true)) ∧
    (fs.contains backup.path = false → s3RehydrateReady env backup = false →
       ∃ e, ensureBackupFileAvailable env backup fs = Except.error e) := by
  refine ⟨?_, ?_, ?_⟩
  · intro hmem
    unfold ensureBackupFileAvailable
    rw [if_pos hmem]
  · intro hmem hready
    simp only [s3RehydrateReady, Bool.and_eq_true, decide_eq_true_eq] at hready
    obtain ⟨⟨⟨⟨⟨hkey, hcfg⟩, hdec⟩, hcli⟩, hmk⟩, hdl⟩ := hready
    rcases hset : env.settings with e | us <;> rw [hset] at hcfg
    · exact absurd hcfg (by simp)
    · simp only [s3FullyConfigured, Bool.and_eq_true, decide_eq_true_eq] at hcfg
      obtain ⟨⟨⟨⟨hen, hend⟩, hbuck⟩, hacc⟩, hsec⟩ := hcfg
      have hmem' : ¬ fs.contains backup.path = true := by rw [hmem]; simp
      unfold ensureBackupFileAvailable
      rw [if_neg hmem', if_neg hkey, hset]
      simp [hen, hend, hbuck, hacc, hsec, hdec, hcli, hmk, hdl]
  · intro hmem hready
    rcases hres : ensureBackupFileAvailable env backup fs with e | p
    · exact ⟨e, rfl⟩
    · rcases ensureBackupFileAvailable_ok_inv env backup fs p hres with h | h
      · rw [hmem] at h; exact absurd h (by simp)
      · rw [hready] at h; exact absurd h (by simp)

/-- Concrete S3 user settings: enabled and fully configured, with
`purge_local=true` and path prefix `p`. -/
def usS3 : UserSettings :=
  { s3Enabled := true, s3Endpoint := some "localhost:9000", s3Region := none,
    s3Bucket := some "b", s3AccessKey := some "k",
    s3SecretKey := some "ENCSECRET", s3UseSSL := false,
    s3PathPrefix := some "p", s3PurgeLocal := true }

/-- A concrete completed backup whose local file may be missing but whose
S3 object key is set. -/
def bkC5 : Backup :=
  { id := "b-5", connectionId := "c-1", scheduleId := none,
    status := "completed", path := "./backups/pg1/shop.sql",
    s3ObjectKey := some "p/pg1/shop.sql", size := 10, startedTime := 0,
    completedTime := some 1, createdAt := 1, updatedAt := 1 }

/-- Rehydration outcomes where everything is available except that the S3
download itself fails. -/
def envC5 : EnsureEnv :=
  { settings := Except.ok usS3, decryptOk := true, clientOk := true,
    mkdirOk := true, downloadOk := false, tmpDir := "/tmp" }

/-- The same outcomes with a succeeding download. -/
def envC5ok : EnsureEnv :=
  { envC5 with downloadOk := true }

/-- **C5, counterexample.** The claim — that whenever the local file is
missing, `s3_object_key` is set, and S3 is enabled and fully configured, the
call downloads the object and returns `(tmp_path, true)` — is false when the
download itself fails: for `envC5`/`bkC5` the key is set and S3 is enabled
and fully configured, yet the call returns an error, not a temp path. -/
theorem ensureBackupFileAvailable_counterexample :
    bkC5.s3ObjectKey = some "p/pg1/shop.sql" ∧
    envC5.settings = Except.ok usS3 ∧ usS3.s3Enabled = true ∧
    s3FullyConfigured usS3 = true ∧
    ensureBackupFileAvailable envC5 bkC5 [] =
      Except.error "failed to download backup from S3" :=
  ⟨rfl, rfl, rfl, by decide, rfl⟩

/-- Witness for the amended C5 theorem: with the file present the local path
is returned with `is_temp=false`; with the file absent and the pipeline
available the temp path is returned with `is_temp=true`; with the download
failing an error is returned. -/
theorem ensureBackupFileAvailable_cases_witness :
    ensureBackupFileAvailable envC5 bkC5 ["./backups/pg1/shop.sql"] =
      Except.ok ("./backups/pg1/shop.sql", false) ∧
    ensureBackupFileAvailable envC5ok bkC5 [] =
      Except.ok ("/tmp/velld-s3-downloads/shop.sql", true) ∧
    ∃ e, ensureBackupFileAvailable envC5 bkC5 [] = Except.error e :=
  ⟨(ensureBackupFileAvailable_cases envC5 bkC5 ["./backups/pg1/shop.sql"]).1 (by decide),
   (ensureBackupFileAvailable_cases envC5ok bkC5 []).2.1 (by decide) (by decide),
   (ensureBackupFileAvailable_cases envC5 bkC5 []).2.2 (by decide) (by decide)⟩

/-! ### Helper lemmas about `uploadToS3IfEnabled` and the single-DB run -/

/-- All conditions under which `uploadToS3IfEnabled` reaches the actual
upload: settings fetched, S3 enabled and fully configured, decryption and
client creation succeeded. -/
def uploadReady (env : S3Env) : Bool :=
  (match env.settings with
   | Except.error _ => false
   | Except.ok us => s3FullyConfigured us) &&
  env.decryptOk && env.clientOk

set_option maxHeartbeats 1000000 in
/-- The S3 upload never changes the status of the backup record. -/
theorem uploadToS3IfEnabled_status (env : S3Env) (b : Backup) (fs : List String) :
    (uploadToS3IfEnabled env b fs).1.status = b.status := by
  unfold uploadToS3IfEnabled
  rcases env.settings with e | us
  · rfl
  · dsimp only
    rcases env.uploadResult with e | k <;> split_ifs <;> rfl

set_option maxHeartbeats 2000000 in
/-- Full characterization of `uploadToS3IfEnabled` when S3 is enabled:
a ready pipeline and a successful upload record the key and apply the purge;
otherwise the call errors and changes nothing. -/
theorem uploadToS3IfEnabled_spec (env : S3Env) (b : Backup) (fs : List String)
    (us : UserSettings) (hset : env.settings = Except.ok us)
    (hen : us.s3Enabled = true) :
    (∀ k, uploadReady env = true → env.uploadResult = Except.ok k →
       uploadToS3IfEnabled env b fs =
         ({ b with s3ObjectKey := some k },
          (if us.s3PurgeLocal then
             if env.removeOk then fs.erase b.path else fs
           else fs),
          Except.ok ())) ∧
    ((uploadReady env = false ∨ ∃ e, env.uploadResult = Except.error e) →
       (uploadToS3IfEnabled env b fs).1 = b ∧
       (uploadToS3IfEnabled env b fs).2.1 = fs ∧
       ∃ e, (uploadToS3IfEnabled env b fs).2.2 = Except.error e) := by
  constructor
  · intro k hready hup
    simp only [uploadReady, hset, Bool.and_eq_true] at hready
    obtain ⟨⟨hcfg, hdec⟩, hcli⟩ := hready
    simp only [s3FullyConfigured, Bool.and_eq_true, decide_eq_true_eq] at hcfg
    obtain ⟨⟨⟨⟨-, hend⟩, hbuck⟩, hacc⟩, hsec⟩ := hcfg
    unfold uploadToS3IfEnabled
    rw [hset]
    simp [hen, hend, hbuck, hacc, hsec, hdec, hcli, hup]
  · intro hbad
    unfold uploadToS3IfEnabled
    rw [hset]
    dsimp only
    rcases hu : env.uploadResult with e | k
    · split_ifs with h1 h2 h3 h4 h5 h6 h7
      · exact absurd h1 (by simp [hen])
      all_goals exact ⟨rfl, rfl, _, rfl⟩
    · rcases hbad with hnr | ⟨e, hue⟩
      · simp only [uploadReady, hset] at hnr
        split_ifs with h1 h2 h3 h4 h5 h6 h7 <;> try exact ⟨rfl, rfl, _, rfl⟩
        · exact absurd h1 (by simp [hen])
        all_goals simp at h6 h7
        all_goals simp [s3FullyConfigured, hen, h2, h3, h4, h5, h6, h7] at hnr
      · rw [hu] at hue
        simp at hue

set_option maxHeartbeats 1000000 in
/-- The S3 upload never changes the local path of the backup record. -/
theorem uploadToS3IfEnabled_path (env : S3Env) (b : Backup) (fs : List String) :
    (uploadToS3IfEnabled env b fs).1.path = b.path := by
  unfold uploadToS3IfEnabled
  rcases env.settings with e | us
  · rfl
  · dsimp only
    rcases env.uploadResult with e | k <;> split_ifs <;> rfl

/-- The completed in-memory record of a successful single-DB dump, before
the S3 leg. -/
def completedBackupRecord (env : DumpEnv) (conn : StoredConnection)
    (backupPath : String) (sz : Int) : Backup :=
  { initialBackupRecord env conn backupPath with
    size := sz, status := "completed", completedTime := some env.now }

set_option maxHeartbeats 1000000 in
/-- Shape of a fully successful single-DB run: the S3 leg is applied to the
completed record and the file list with the fresh dump file, and exactly
that record is appended to the store and returned. -/
theorem createSingleDatabaseBackup_success_shape (env : DumpEnv)
    (conn : StoredConnection) (dbName backupPath : String) (w : World) (sz : Int)
    (htool : env.toolOk = true) (htun : env.tunnelOk = true)
    (hmk : env.mkdirOk = true)
    (hsupp : supportedBackupTypes.contains conn.type = true)
    (hcmd : env.cmdFound = true) (hdump : env.dumpResult = Except.ok ())
    (hstat : env.statSize = some sz) (hper : env.persistOk = true) :
    createSingleDatabaseBackup env conn dbName backupPath w =
      ({ store := w.store ++
           [(uploadToS3IfEnabled env.s3 (completedBackupRecord env conn backupPath sz)
               (backupPath :: w.fs)).1],
         fs := (uploadToS3IfEnabled env.s3 (completedBackupRecord env conn backupPath sz)
               (backupPath :: w.fs)).2.1 },
       Except.ok (uploadToS3IfEnabled env.s3 (completedBackupRecord env conn backupPath sz)
               (backupPath :: w.fs)).1) := by
  unfold createSingleDatabaseBackup completedBackupRecord
  rw [htool, htun, hmk, hsupp, hcmd, hdump, hstat, hper]
  simp

set_option maxHeartbeats 2000000 in
/-- Every record in the store after a single-DB run was either there before
or is a completed record. -/
theorem createSingleDatabaseBackup_store_members (env : DumpEnv)
    (conn : StoredConnection) (dbName backupPath : String) (w : World) :
    ∀ b ∈ (createSingleDatabaseBackup env conn dbName backupPath w).1.store,
      b ∈ w.store ∨ b.status = "completed" := by
  intro b hb
  unfold createSingleDatabaseBackup at hb
  split_ifs at hb <;> dsimp only at hb <;> try exact Or.inl hb
  all_goals
    (rcases hd : env.dumpResult with msg | u <;> rw [hd] at hb <;> dsimp only at hb <;>
      try exact Or.inl hb)
  all_goals
    (rcases hs : env.statSize with _ | sz <;> rw [hs] at hb <;> dsimp only at hb <;>
      try exact Or.inl hb)
  all_goals
    (rcases List.mem_append.mp hb with hmem | hmem <;>
      first
        | exact Or.inl hmem
        | (rw [List.mem_singleton.mp hmem];
           exact Or.inr (uploadToS3IfEnabled_status env.s3 _ _)))

/-! ### C1: single-DB run, failed dump -/

/-- **C1, amended.** In a single-DB `CreateBackup`, the in-memory backup
record is created with `status=in_progress` before the dump command is
executed, but it is NOT persisted at that point: on non-zero exit of the dump
tool the error is returned to the caller and the Backup Record Store is
unchanged — no record (in particular no `in_progress` record) is visible in
it; records reach the store only after a successful dump, already with
`status=completed`. -/
theorem createSingleDatabaseBackup_failed_dump (env : DumpEnv)
    (conn : StoredConnection) (dbName backupPath : String) (w : World) :
    (initialBackupRecord env conn backupPath).status = "in_progress" ∧
    (∀ msg, env.dumpResult = Except.error msg →
       (createSingleDatabaseBackup env conn dbName backupPath w).1.store = w.store ∧
       ∃ e, (createSingleDatabaseBackup env conn dbName backupPath w).2 =
         Except.error e) ∧
    (∀ b ∈ (createSingleDatabaseBackup env conn dbName backupPath w).1.store,
       b ∈ w.store ∨ b.status = "completed") := by
  refine ⟨rfl, ?_, createSingleDatabaseBackup_store_members env conn dbName backupPath w⟩
  intro msg hd
  unfold createSingleDatabaseBackup
  split_ifs <;> try exact ⟨rfl, _, rfl⟩
  all_goals rw [hd]
  all_goals exact ⟨rfl, _, rfl⟩

/-- S3 leg outcomes for a user with S3 disabled. -/
def s3Disabled : S3Env :=
  { settings := Except.ok
      { s3Enabled := false, s3Endpoint := none, s3Region := none,
        s3Bucket := none, s3AccessKey := none, s3SecretKey := none,
        s3UseSSL := false, s3PathPrefix := none, s3PurgeLocal := false },
    decryptOk := true, clientOk := true,
    uploadResult := Except.error "unused", removeOk := true }

/-- Outcomes of a single-DB run whose dump command exits non-zero. -/
def envC1 : DumpEnv :=
  { toolOk := true, tunnelOk := true, mkdirOk := true, cmdFound := true,
    dumpResult := Except.error "connection refused", statSize := none,
    s3 := s3Disabled, persistOk := true, backupId := "b-1", now := 100 }

/-- **C1, counterexample.** The claim — that after a non-zero dump exit a
record with `status=in_progress` remains visible in the Backup Record
Store — is false: in a concrete run whose dump fails, the error is returned
to the caller but the store is still empty; no record of any status was
persisted. -/
theorem createSingleDatabaseBackup_counterexample :
    (createSingleDatabaseBackup envC1 connC2 "shop" "./backups/pg1/shop.sql"
        { store := [], fs := [] }).2 =
      Except.error
        "backup failed for postgresql database shop - connection refused" ∧
    (createSingleDatabaseBackup envC1 connC2 "shop" "./backups/pg1/shop.sql"
        { store := [], fs := [] }).1.store = [] :=
  ⟨rfl, rfl⟩

/-- Witness for the amended C1 theorem at the concrete failing run `envC1`:
the in-memory record starts `in_progress`, the store stays empty, the error
is returned. -/
theorem createSingleDatabaseBackup_failed_dump_witness :
    (initialBackupRecord envC1 connC2 "./backups/pg1/shop.sql").status =
      "in_progress" ∧
    (createSingleDatabaseBackup envC1 connC2 "shop" "./backups/pg1/shop.sql"
        { store := [], fs := [] }).1.store = [] ∧
    ∃ e, (createSingleDatabaseBackup envC1 connC2 "shop" "./backups/pg1/shop.sql"
        { store := [], fs := [] }).2 = Except.error e := by
  have h := createSingleDatabaseBackup_failed_dump envC1 connC2 "shop"
    "./backups/pg1/shop.sql" { store := [], fs := [] }
  exact ⟨h.1, (h.2.1 "connection refused" rfl).1, (h.2.1 "connection refused" rfl).2⟩

/-! ### C4: upload-then-purge states -/

set_option maxHeartbeats 1000000 in
/-- **C4, amended.** For every successful single-DB `CreateBackup` with S3
enabled and `purge_local=true`, the record is persisted with
`status=completed` whatever the S3 outcome, and the run ends in exactly one
of three states: `(local exists, s3_object_key null)` when the upload
failed, `(local absent, s3_object_key set)` when upload and purge both
succeeded, or `(local exists, s3_object_key set)` when the upload succeeded
but the local purge failed (a warning only); the state
`(local absent, s3_object_key null)` never occurs. -/
theorem createSingleDatabaseBackup_upload_purge (env : DumpEnv)
    (conn : StoredConnection) (dbName backupPath : String) (w : World)
    (us : UserSettings) (sz : Int)
    (htool : env.toolOk = true) (htun : env.tunnelOk = true)
    (hmk : env.mkdirOk = true)
    (hsupp : supportedBackupTypes.contains conn.type = true)
    (hcmd : env.cmdFound = true) (hdump : env.dumpResult = Except.ok ())
    (hstat : env.statSize = some sz) (hper : env.persistOk = true)
    (hset : env.s3.settings = Except.ok us) (hen : us.s3Enabled = true)
    (hpurge : us.s3PurgeLocal = true) (hfresh : backupPath ∉ w.fs) :
    ∃ b, (createSingleDatabaseBackup env conn dbName backupPath w).2 = Except.ok b ∧
      (createSingleDatabaseBackup env conn dbName backupPath w).1.store =
        w.store ++ [b] ∧
      b.status = "completed" ∧ b.path = backupPath ∧
      ¬(backupPath ∉ (createSingleDatabaseBackup env conn dbName backupPath w).1.fs ∧
          b.s3ObjectKey = none) ∧
      ((uploadReady env.s3 = false ∨ ∃ e, env.s3.uploadResult = Except.error e) →
         b.s3ObjectKey = none ∧
         backupPath ∈ (createSingleDatabaseBackup env conn dbName backupPath w).1.fs) ∧
      (∀ k, uploadReady env.s3 = true → env.s3.uploadResult = Except.ok k →
         env.s3.removeOk = true →
         b.s3ObjectKey = some k ∧
         backupPath ∉ (createSingleDatabaseBackup env conn dbName backupPath w).1.fs) ∧
      (∀ k, uploadReady env.s3 = true → env.s3.uploadResult = Except.ok k →
         env.s3.removeOk = false →
         b.s3ObjectKey = some k ∧
         backupPath ∈ (createSingleDatabaseBackup env conn dbName backupPath w).1.fs) := by
  have hshape := createSingleDatabaseBackup_success_shape env conn dbName backupPath w sz
    htool htun hmk hsupp hcmd hdump hstat hper
  have hup := uploadToS3IfEnabled_spec env.s3
    (completedBackupRecord env conn backupPath sz) (backupPath :: w.fs) us hset hen
  rw [hshape]
  dsimp only
  by_cases hready : uploadReady env.s3 = true
  · rcases hu : env.s3.uploadResult with e | k
    · obtain ⟨hb1, hb2, e', hb3⟩ := hup.2 (Or.inr ⟨e, hu⟩)
      refine ⟨_, rfl, rfl, ?_, ?_, ?_, ?_, ?_, ?_⟩
      · rw [hb1]; rfl
      · rw [hb1]; rfl
      · rintro ⟨hnot, -⟩
        exact hnot (by rw [hb2]; exact List.mem_cons_self _ _)
      · intro _
        exact ⟨by rw [hb1]; rfl, by rw [hb2]; exact List.mem_cons_self _ _⟩
      · intro k _ hok _
        exact absurd hok (by simp)
      · intro k _ hok _
        exact absurd hok (by simp)
    · have heq := hup.1 k hready hu
      refine ⟨_, rfl, rfl, ?_, ?_, ?_, ?_, ?_, ?_⟩
      · rw [heq]; rfl
      · rw [heq]; rfl
      · rintro ⟨-, hkey⟩
        rw [heq] at hkey
        exact absurd hkey (by simp)
      · rintro (hnr | ⟨e, hue⟩)
        · rw [hready] at hnr; exact absurd hnr (by simp)
        · exact absurd hue (by simp)
      · intro k' _ hok hrm
        have hk : k' = k := by simpa using hok.symm
        subst hk
        constructor
        · rw [heq]
        · rw [heq]
          dsimp only
          rw [hpurge, hrm]
          simp only [if_true]
          have : (completedBackupRecord env conn backupPath sz).path = backupPath := rfl
          rw [this, List.erase_cons_head]
          exact hfresh
      · intro k' _ hok hrm
        have hk : k' = k := by simpa using hok.symm
        subst hk
        constructor
        · rw [heq]
        · rw [heq]
          dsimp only
          rw [hpurge, hrm]
          simp only [if_true, if_false]
          exact List.mem_cons_self _ _
  · have hnr : uploadReady env.s3 = false := by simpa using hready
    obtain ⟨hb1, hb2, e', hb3⟩ := hup.2 (Or.inl hnr)
    refine ⟨_, rfl, rfl, ?_, ?_, ?_, ?_, ?_, ?_⟩
    · rw [hb1]; rfl
    · rw [hb1]; rfl
    · rintro ⟨hnot, -⟩
      exact hnot (by rw [hb2]; exact List.mem_cons_self _ _)
    · intro _
      exact ⟨by rw [hb1]; rfl, by rw [hb2]; exact List.mem_cons_self _ _⟩
    · intro k hr _ _
      rw [hnr] at hr
      exact absurd hr (by simp)
    · intro k hr _ _
      rw [hnr] at hr
      exact absurd hr (by simp)

/-- S3 leg outcomes where the upload succeeds but the local purge
(`os.Remove`) fails. -/
def s3PurgeFail : S3Env :=
  { settings := Except.ok usS3, decryptOk := true, clientOk := true,
    uploadResult := Except.ok "p/pg1/shop.sql", removeOk := false }

/-- Outcomes of a fully successful single-DB run whose purge fails. -/
def envC4 : DumpEnv :=
  { toolOk := true, tunnelOk := true, mkdirOk := true, cmdFound := true,
    dumpResult := Except.ok (), statSize := some 42,
    s3 := s3PurgeFail, persistOk := true, backupId := "b-4", now := 100 }

/-- The same outcomes with a succeeding purge. -/
def envC4ok : DumpEnv :=
  { envC4 with s3 := { s3PurgeFail with removeOk := true } }

/-- **C4, counterexample.** The claim — that with S3 enabled and
`purge_local=true` a successful run ends in exactly one of the two states
`(local exists, s3 null)` or `(local absent, s3 set)` — is false: in a
concrete run where the upload succeeds but `os.Remove` fails, the run
succeeds and ends in the third state `(local exists, s3 set)`. -/
theorem createSingleDatabaseBackup_purge_counterexample :
    usS3.s3PurgeLocal = true ∧ usS3.s3Enabled = true ∧
    envC4.s3.settings = Except.ok usS3 ∧
    (createSingleDatabaseBackup envC4 connC2 "shop" "./backups/pg1/shop.sql"
        { store := [], fs := [] }).2 =
      Except.ok { completedBackupRecord envC4 connC2 "./backups/pg1/shop.sql" 42 with
        s3ObjectKey := some "p/pg1/shop.sql" } ∧
    "./backups/pg1/shop.sql" ∈
      (createSingleDatabaseBackup envC4 connC2 "shop" "./backups/pg1/shop.sql"
        { store := [], fs := [] }).1.fs :=
  ⟨rfl, rfl, rfl, rfl, by decide⟩

/-- Witness for the amended C4 theorem at the concrete run `envC4ok`
(upload and purge both succeed): the returned backup carries the object key
and the local file is gone. -/
theorem createSingleDatabaseBackup_upload_purge_witness :
    ∃ b, (createSingleDatabaseBackup envC4ok connC2 "shop" "./backups/pg1/shop.sql"
        { store := [], fs := [] }).2 = Except.ok b ∧
      b.s3ObjectKey = some "p/pg1/shop.sql" ∧
      "./backups/pg1/shop.sql" ∉
        (createSingleDatabaseBackup envC4ok connC2 "shop" "./backups/pg1/shop.sql"
          { store := [], fs := [] }).1.fs := by
  obtain ⟨b, h1, h2, h3, h4, h5, h6, h7, h8⟩ :=
    createSingleDatabaseBackup_upload_purge envC4ok connC2 "shop"
      "./backups/pg1/shop.sql" { store := [], fs := [] } usS3 42
      rfl rfl rfl (by decide) rfl rfl rfl rfl rfl rfl rfl (by decide)
  obtain ⟨hk, hnf⟩ := h7 "p/pg1/shop.sql" (by decide) rfl rfl
  exact ⟨b, h1, hk, hnf⟩

/-! ### C9: selected_databases round-trip -/

/-- `(a ++ b).data = a.data ++ b.data` for Go/Lean string concatenation. -/
theorem strData_append (a b : String) : (a ++ b).data = a.data ++ b.data := by
  cases a; cases b; rfl

/-- Reconstructing a string from its character data is the identity. -/
theorem strMk_data (a : String) : String.mk a.data = a := by
  cases a; rfl

/-- A string with non-empty character data is not the empty string. -/
theorem strMk_ne_empty {cs : List Char} (h : cs ≠ []) : String.mk cs ≠ "" := by
  intro he
  apply h
  have hd : (String.mk cs).data = ("" : String).data := by rw [he]
  simpa using hd

/-- Scanning a comma-free run of characters just extends the accumulator. -/
theorem scanSelectedDatabases_run (cs : List Char) :
    ∀ (acc rest : List Char), (∀ c ∈ cs, c ≠ ',') →
      scanSelectedDatabases acc (cs ++ rest) =
        scanSelectedDatabases (acc ++ cs) rest := by
  induction cs with
  | nil => intro acc rest _; simp
  | cons c cs ih =>
    intro acc rest hc
    have hcne : c ≠ ',' := hc c (List.mem_cons_self c cs)
    calc scanSelectedDatabases acc ((c :: cs) ++ rest)
        = scanSelectedDatabases (acc ++ [c]) (cs ++ rest) := by
          simp only [List.cons_append, scanSelectedDatabases, if_neg hcne]
          rfl
      _ = scanSelectedDatabases ((acc ++ [c]) ++ cs) rest :=
          ih (acc ++ [c]) rest (fun x hx => hc x (List.mem_cons_of_mem c hx))
      _ = scanSelectedDatabases (acc ++ (c :: cs)) rest := by
          rw [List.append_assoc]
          rfl

/-- The character data of the joined tail: a leading comma before each
further name. -/
def joinTailData (ds : List String) : List Char :=
  ds.foldr (fun s acc => ',' :: s.data ++ acc) []

/-- The character data of a non-empty comma-join. -/
theorem joinSelectedDatabases_data (ds : List String) :
    ∀ d : String, (joinSelectedDatabases (d :: ds)).data = d.data ++ joinTailData ds := by
  induction ds with
  | nil => intro d; simp [joinSelectedDatabases, joinTailData]
  | cons e es ih =>
    intro d
    have h1 : joinSelectedDatabases (d :: e :: es) =
        joinSelectedDatabases ((d ++ "," ++ e) :: es) := rfl
    rw [h1, ih (d ++ "," ++ e), strData_append, strData_append]
    simp [joinTailData]

/-- Scanning the joined tail starting from a non-empty comma-free
accumulator returns the accumulator followed by the (comma-free, non-empty)
names. -/
theorem scanSelectedDatabases_tail (ds : List String) :
    ∀ (a : String), a ≠ "" → ',' ∉ a.data →
      (∀ x ∈ ds, x ≠ "" ∧ ',' ∉ x.data) →
      scanSelectedDatabases a.data (joinTailData ds) = a :: ds := by
  induction ds with
  | nil =>
    intro a ha _ _
    have hne : a.data ≠ [] := by
      intro h
      exact ha (by rw [← strMk_data a, h])
    simp only [joinTailData, List.foldr_nil, scanSelectedDatabases,
      List.isEmpty_iff, if_neg hne, strMk_data]
  | cons e es ih =>
    intro a ha hacomma hds
    obtain ⟨he1, he2⟩ := hds e (List.mem_cons_self e es)
    have hne : ¬ a.data.isEmpty = true := by
      simp only [List.isEmpty_iff]
      intro h
      exact ha (by rw [← strMk_data a, h])
    have hstep : scanSelectedDatabases a.data (joinTailData (e :: es)) =
        String.mk a.data :: scanSelectedDatabases [] (e.data ++ joinTailData es) := by
      show scanSelectedDatabases a.data (',' :: (e.data ++ joinTailData es)) = _
      simp only [scanSelectedDatabases]
      rw [if_pos trivial, if_neg hne]
    rw [hstep, strMk_data]
    have hrun : scanSelectedDatabases ([] : List Char) (e.data ++ joinTailData es) =
        scanSelectedDatabases e.data (joinTailData es) := by
      have := scanSelectedDatabases_run e.data [] (joinTailData es)
        (fun c hc hceq => he2 (hceq ▸ hc))
      simpa using this
    rw [hrun, ih e he1 he2 (fun x hx => hds x (List.mem_cons_of_mem e hx))]

/-- Every name produced by the scanning loop is non-empty and comma-free. -/
theorem scanSelectedDatabases_members (cs : List Char) :
    ∀ (acc : List Char), ',' ∉ acc →
      ∀ x ∈ scanSelectedDatabases acc cs, x ≠ "" ∧ ',' ∉ x.data := by
  induction cs with
  | nil =>
    intro acc hacc x hx
    simp only [scanSelectedDatabases] at hx
    by_cases he : acc.isEmpty
    · rw [if_pos he] at hx
      cases hx
    · rw [if_neg he] at hx
      rw [List.mem_singleton.mp hx]
      refine ⟨strMk_ne_empty ?_, hacc⟩
      simpa [List.isEmpty_iff] using he
  | cons c rest ih =>
    intro acc hacc x hx
    simp only [scanSelectedDatabases] at hx
    by_cases hc : c = ','
    · rw [if_pos hc] at hx
      by_cases he : acc.isEmpty
      · rw [if_pos he] at hx
        exact ih [] (by simp) x hx
      · rw [if_neg he] at hx
        rcases List.mem_cons.mp hx with hx1 | hx2
        · rw [hx1]
          refine ⟨strMk_ne_empty ?_, hacc⟩
          simpa [List.isEmpty_iff] using he
        · exact ih [] (by simp) x hx2
    · rw [if_neg hc] at hx
      refine ih (acc ++ [c]) ?_ x hx
      intro hm
      rcases List.mem_append.mp hm with h | h
      · exact hacc h
      · rw [List.mem_singleton] at h
        exact hc h.symm

/-- Every name read back from a persisted `selected_databases` string is
non-empty and comma-free. -/
theorem parseSelectedDatabases_members (s : String) :
    ∀ x ∈ parseSelectedDatabases s, x ≠ "" ∧ ',' ∉ x.data := by
  intro x hx
  unfold parseSelectedDatabases at hx
  split_ifs at hx
  · cases hx
  · exact scanSelectedDatabases_members s.data [] (by simp) x hx

/-- **C9.** `selected_databases` round-trips through its persisted
comma-joined encoding: for every list of names that are non-empty and
contain no comma, `UpdateSelectedDatabases` followed by `GetConnection`
yields the same ordered list; for every list in which some name contains a
comma, the round-trip does NOT restore the original list (names are split
at the comma); and empty segments are dropped on read. -/
theorem selectedDatabases_roundtrip :
    (∀ l : List String, (∀ x ∈ l, x ≠ "" ∧ ',' ∉ x.data) →
       parseSelectedDatabases (joinSelectedDatabases l) = l) ∧
    (∀ l : List String, (∃ x ∈ l, ',' ∈ x.data) →
       parseSelectedDatabases (joinSelectedDatabases l) ≠ l) ∧
    (∀ s : String, "" ∉ parseSelectedDatabases s) := by
  refine ⟨?_, ?_, ?_⟩
  · intro l hl
    cases l with
    | nil => rfl
    | cons d ds =>
      obtain ⟨hd1, hd2⟩ := hl d (List.mem_cons_self d ds)
      have hdata := joinSelectedDatabases_data ds d
      have hddata : d.data ≠ [] := by
        intro h
        exact hd1 (by rw [← strMk_data d, h])
      have hne : joinSelectedDatabases (d :: ds) ≠ "" := by
        intro h
        apply hddata
        have h0 : (joinSelectedDatabases (d :: ds)).data = [] := by rw [h]
        rw [hdata] at h0
        exact (List.append_eq_nil.mp h0).1
      unfold parseSelectedDatabases
      rw [if_neg hne, hdata]
      have hrun : scanSelectedDatabases ([] : List Char) (d.data ++ joinTailData ds) =
          scanSelectedDatabases d.data (joinTailData ds) := by
        have := scanSelectedDatabases_run d.data [] (joinTailData ds)
          (fun c hc hceq => hd2 (hceq ▸ hc))
        simpa using this
      rw [hrun]
      exact scanSelectedDatabases_tail ds d hd1 hd2
        (fun x hx => hl x (List.mem_cons_of_mem d hx))
  · rintro l ⟨x, hx, hcomma⟩ heq
    have hmem : x ∈ parseSelectedDatabases (joinSelectedDatabases l) := by
      rw [heq]; exact hx
    exact (parseSelectedDatabases_members _ x hmem).2 hcomma
  · intro s hs
    exact (parseSelectedDatabases_members s "" hs).1 rfl

/-- Witness for C9: a comma-free list round-trips; a name containing a comma
does not; empty segments are dropped. -/
theorem selectedDatabases_roundtrip_witness :
    parseSelectedDatabases (joinSelectedDatabases ["shop", "crm"]) = ["shop", "crm"] ∧
    parseSelectedDatabases (joinSelectedDatabases ["a,b"]) ≠ ["a,b"] ∧
    "" ∉ parseSelectedDatabases "a,,b" :=
  ⟨selectedDatabases_roundtrip.1 ["shop", "crm"] (by decide),
   selectedDatabases_roundtrip.2.1 ["a,b"] ⟨"a,b", by decide, by decide⟩,
   selectedDatabases_roundtrip.2.2 "a,,b"⟩

/-! ### C3: multi-DB fan-out -/

/-- A sub-dump of the `createMultiDatabaseBackup` loop succeeds iff the tool
was found on PATH, the dump and the stat succeeded, and the record insert
succeeded (an S3 failure is a warning only and does not fail a sub-dump). -/
def subDumpSucceeds (db : String × DbDumpEnv) : Bool :=
  db.2.cmdFound && db.2.dumpOk && db.2.statSize.isSome && db.2.persistOk

/-- The record a successful sub-dump persists, after its S3 leg. -/
def multiBackupOf (conn : StoredConnection) (startTime now : Int)
    (folder timestamp : String) (db : String × DbDumpEnv) : Backup :=
  (uploadToS3IfEnabled db.2.s3
    { id := db.2.backupId, connectionId := conn.id, scheduleId := none,
      status := "completed",
      path := folder ++ "/" ++ db.1 ++ "_" ++ timestamp ++ ".sql",
      s3ObjectKey := none, size := db.2.statSize.getD 0, startedTime := startTime,
      completedTime := some now, createdAt := now, updatedAt := now }
    []).1

set_option maxHeartbeats 1000000 in
/-- The backup record produced by the S3 leg does not depend on the state of
the local filesystem. -/
theorem uploadToS3IfEnabled_fst (env : S3Env) (b : Backup) (fs fs2 : List String) :
    (uploadToS3IfEnabled env b fs).1 = (uploadToS3IfEnabled env b fs2).1 := by
  unfold uploadToS3IfEnabled
  rcases env.settings with e | us
  · rfl
  · dsimp only
    rcases env.uploadResult with e | k <;> split_ifs <;> rfl

set_option maxHeartbeats 2000000 in
/-- One iteration of the multi-DB loop: a successful sub-dump appends
exactly its record to the store and reports it; a failed sub-dump reports
`none` and leaves the store unchanged. -/
theorem processOneDatabase_spec (conn : StoredConnection) (startTime now : Int)
    (folder timestamp : String) (w : World) (dbName : String) (env : DbDumpEnv) :
    (subDumpSucceeds (dbName, env) = true →
       ∃ fs2, processOneDatabase conn startTime now folder timestamp w dbName env =
         ({ store := w.store ++
              [multiBackupOf conn startTime now folder timestamp (dbName, env)],
            fs := fs2 },
          some (multiBackupOf conn startTime now folder timestamp (dbName, env)))) ∧
    (subDumpSucceeds (dbName, env) = false →
       ∃ fs2, processOneDatabase conn startTime now folder timestamp w dbName env =
         ({ store := w.store, fs := fs2 }, none)) := by
  constructor
  · intro h
    simp only [subDumpSucceeds, Bool.and_eq_true] at h
    obtain ⟨⟨⟨h1, h2⟩, h3⟩, h4⟩ := h
    obtain ⟨sz, hsz⟩ := Option.isSome_iff_exists.mp h3
    have hbk : multiBackupOf conn startTime now folder timestamp (dbName, env) =
        (uploadToS3IfEnabled env.s3
          { id := env.backupId, connectionId := conn.id, scheduleId := none,
            status := "completed",
            path := folder ++ "/" ++ dbName ++ "_" ++ timestamp ++ ".sql",
            s3ObjectKey := none, size := sz, startedTime := startTime,
            completedTime := some now, createdAt := now, updatedAt := now }
          ((folder ++ "/" ++ dbName ++ "_" ++ timestamp ++ ".sql") :: w.fs)).1 := by
      unfold multiBackupOf
      rw [hsz]
      exact uploadToS3IfEnabled_fst env.s3 _ [] _
    refine ⟨(uploadToS3IfEnabled env.s3
          { id := env.backupId, connectionId := conn.id, scheduleId := none,
            status := "completed",
            path := folder ++ "/" ++ dbName ++ "_" ++ timestamp ++ ".sql",
            s3ObjectKey := none, size := sz, startedTime := startTime,
            completedTime := some now, createdAt := now, updatedAt := now }
          ((folder ++ "/" ++ dbName ++ "_" ++ timestamp ++ ".sql") :: w.fs)).2.1, ?_⟩
    rw [hbk]
    simp [processOneDatabase, h1, h2, hsz, h4]
  · intro h
    by_cases h1 : env.cmdFound = true
    · by_cases h2 : env.dumpOk = true
      · rcases hsz : env.statSize with _ | sz
        · exact ⟨(folder ++ "/" ++ dbName ++ "_" ++ timestamp ++ ".sql") :: w.fs,
            by simp [processOneDatabase, h1, h2, hsz]⟩
        · by_cases h4 : env.persistOk = true
          · exfalso
            simp [subDumpSucceeds, h1, h2, hsz, h4] at h
          · have h4f : env.persistOk = false := by simpa using h4
            exact ⟨(uploadToS3IfEnabled env.s3
                { id := env.backupId, connectionId := conn.id, scheduleId := none,
                  status := "completed",
                  path := folder ++ "/" ++ dbName ++ "_" ++ timestamp ++ ".sql",
                  s3ObjectKey := none, size := sz, startedTime := startTime,
                  completedTime := some now, createdAt := now, updatedAt := now }
                ((folder ++ "/" ++ dbName ++ "_" ++ timestamp ++ ".sql") :: w.fs)).2.1,
              by simp [processOneDatabase, h1, h2, hsz, h4f]⟩
      · have h2f : env.dumpOk = false := by simpa using h2
        exact ⟨w.fs, by simp [processOneDatabase, h1, h2f]⟩
    · have h1f : env.cmdFound = false := by simpa using h1
      exact ⟨w.fs, by simp [processOneDatabase, h1f]⟩

/-- The whole multi-DB loop: the successful sub-dumps, in order, are exactly
what is appended to the store and collected into the success list. -/
theorem runMultiDumps_spec (conn : StoredConnection) (startTime now : Int)
    (folder timestamp : String) :
    ∀ (dbs : List (String × DbDumpEnv)) (w : World) (acc : List Backup),
      (runMultiDumps conn startTime now folder timestamp w acc dbs).2 =
        acc ++ (dbs.filter subDumpSucceeds).map
          (multiBackupOf conn startTime now folder timestamp) ∧
      (runMultiDumps conn startTime now folder timestamp w acc dbs).1.store =
        w.store ++ (dbs.filter subDumpSucceeds).map
          (multiBackupOf conn startTime now folder timestamp) := by
  intro dbs
  induction dbs with
  | nil => intro w acc; simp [runMultiDumps]
  | cons db rest ih =>
    intro w acc
    obtain ⟨dbName, env⟩ := db
    by_cases h : subDumpSucceeds (dbName, env) = true
    · obtain ⟨fs2, hres⟩ :=
        (processOneDatabase_spec conn startTime now folder timestamp w dbName env).1 h
      have hunf : runMultiDumps conn startTime now folder timestamp w acc
          ((dbName, env) :: rest) =
          runMultiDumps conn startTime now folder timestamp
            { store := w.store ++
                [multiBackupOf conn startTime now folder timestamp (dbName, env)],
              fs := fs2 }
            (acc ++ [multiBackupOf conn startTime now folder timestamp (dbName, env)])
            rest := by
        show runMultiDumps conn startTime now folder timestamp
            (processOneDatabase conn startTime now folder timestamp w dbName env).1
            (acc ++ (processOneDatabase conn startTime now folder timestamp w
              dbName env).2.toList) rest = _
        rw [hres]
        rfl
      obtain ⟨ih1, ih2⟩ := ih
        { store := w.store ++
            [multiBackupOf conn startTime now folder timestamp (dbName, env)],
          fs := fs2 }
        (acc ++ [multiBackupOf conn startTime now folder timestamp (dbName, env)])
      rw [hunf]
      constructor
      · rw [ih1, List.filter_cons, if_pos h, List.map_cons]
        simp
      · rw [ih2, List.filter_cons, if_pos h, List.map_cons]
        simp
    · have hf : subDumpSucceeds (dbName, env) = false := by simpa using h
      obtain ⟨fs2, hres⟩ :=
        (processOneDatabase_spec conn startTime now folder timestamp w dbName env).2 hf
      have hunf : runMultiDumps conn startTime now folder timestamp w acc
          ((dbName, env) :: rest) =
          runMultiDumps conn startTime now folder timestamp
            { store := w.store, fs := fs2 } acc rest := by
        show runMultiDumps conn startTime now folder timestamp
            (processOneDatabase conn startTime now folder timestamp w dbName env).1
            (acc ++ (processOneDatabase conn startTime now folder timestamp w
              dbName env).2.toList) rest = _
        rw [hres]
        simp
      obtain ⟨ih1, ih2⟩ := ih { store := w.store, fs := fs2 } acc
      rw [hunf]
      constructor
      · rw [ih1, List.filter_cons, if_neg (by simp [hf])]
      · rw [ih2, List.filter_cons, if_neg (by simp [hf])]

/-- **C3.** For every multi-DB `CreateBackup` run (non-empty
`selected_databases`, supported engine, successful setup), the call returns
an error if and only if every per-database sub-dump fails; otherwise it
returns the first successful Backup; each successful sub-dump is
individually persisted (in order), and a failed sub-dump leaves no backup
record: the store grows by exactly the successful sub-dumps. -/
theorem createMultiDatabaseBackup_spec (conn : StoredConnection)
    (startTime now : Int) (folder timestamp : String)
    (toolOk tunnelOk mkdirOk : Bool) (dbs : List (String × DbDumpEnv)) (w : World)
    (htool : toolOk = true) (htun : tunnelOk = true) (hmk : mkdirOk = true)
    (hsupp : supportedBackupTypes.contains conn.type = true) (hne : dbs ≠ []) :
    ((∃ e, (createMultiDatabaseBackup conn startTime now folder timestamp toolOk
          tunnelOk mkdirOk dbs w).2 = Except.error e) ↔
       ∀ db ∈ dbs, subDumpSucceeds db = false) ∧
    (createMultiDatabaseBackup conn startTime now folder timestamp toolOk
        tunnelOk mkdirOk dbs w).1.store =
      w.store ++ (dbs.filter subDumpSucceeds).map
        (multiBackupOf conn startTime now folder timestamp) ∧
    (∀ b, (createMultiDatabaseBackup conn startTime now folder timestamp toolOk
        tunnelOk mkdirOk dbs w).2 = Except.ok b →
      ((dbs.filter subDumpSucceeds).map
        (multiBackupOf conn startTime now folder timestamp)).head? = some b) := by
  obtain ⟨hrun2, hrun1⟩ := runMultiDumps_spec conn startTime now folder timestamp dbs w []
  have hres : createMultiDatabaseBackup conn startTime now folder timestamp toolOk
      tunnelOk mkdirOk dbs w =
      (match (dbs.filter subDumpSucceeds).map
          (multiBackupOf conn startTime now folder timestamp) with
       | [] => ((runMultiDumps conn startTime now folder timestamp w [] dbs).1,
                Except.error "all database backups failed")
       | b :: _ => ((runMultiDumps conn startTime now folder timestamp w [] dbs).1,
                Except.ok b)) := by
    unfold createMultiDatabaseBackup
    rw [if_neg (by rw [htool]; simp), if_neg (by rw [htun]; simp),
        if_neg (by rw [hmk]; simp), if_neg (by rw [hsupp]; simp)]
    dsimp only
    rw [hrun2, List.nil_append]
  rcases hP : (dbs.filter subDumpSucceeds).map
      (multiBackupOf conn startTime now folder timestamp) with _ | ⟨b0, rest⟩
  · rw [hP] at hres
    refine ⟨⟨fun _ => ?_, fun _ => ⟨_, by rw [hres]⟩⟩, ?_, ?_⟩
    · intro db hdb
      have hfil := List.filter_eq_nil.mp (List.map_eq_nil.mp hP)
      simpa using hfil db hdb
    · rw [hres]
      dsimp only
      rw [hrun1, hP]
    · intro b hb
      rw [hres] at hb
      exact absurd hb (by simp)
  · rw [hP] at hres
    refine ⟨⟨?_, ?_⟩, ?_, ?_⟩
    · rintro ⟨e, he⟩
      rw [hres] at he
      exact absurd he (by simp)
    · intro hall
      exfalso
      have hfil : dbs.filter subDumpSucceeds = [] :=
        List.filter_eq_nil.mpr (fun a ha => by simp [hall a ha])
      rw [hfil] at hP
      exact absurd hP (by simp)
    · rw [hres]
      dsimp only
      rw [hrun1, hP]
    · intro b hb
      rw [hres] at hb
      dsimp only at hb
      have hb0 : b0 = b := by simpa using hb
      rw [← hb0]
      rfl

/-- Per-database outcomes of a successful sub-dump (S3 disabled). -/
def envDbOk : DbDumpEnv :=
  { cmdFound := true, dumpOk := true, statSize := some 7,
    s3 := s3Disabled, persistOk := true, backupId := "mb-1" }

/-- Per-database outcomes of a failed sub-dump (the dump command fails). -/
def envDbFail : DbDumpEnv :=
  { cmdFound := true, dumpOk := false, statSize := none,
    s3 := s3Disabled, persistOk := true, backupId := "mb-2" }

/-- Witness for C3 at a concrete two-database run (one success, one
failure): the store holds exactly the successful record and the call does
not error. -/
theorem createMultiDatabaseBackup_spec_witness :
    (createMultiDatabaseBackup connC2 0 1 "./backups/pg1" "ts" true true true
        [("shop", envDbOk), ("crm", envDbFail)] { store := [], fs := [] }).1.store =
      [multiBackupOf connC2 0 1 "./backups/pg1" "ts" ("shop", envDbOk)] ∧
    ¬ ∃ e, (createMultiDatabaseBackup connC2 0 1 "./backups/pg1" "ts" true true true
        [("shop", envDbOk), ("crm", envDbFail)] { store := [], fs := [] }).2 =
      Except.error e := by
  have h := createMultiDatabaseBackup_spec connC2 0 1 "./backups/pg1" "ts" true true true
    [("shop", envDbOk), ("crm", envDbFail)] { store := [], fs := [] }
    rfl rfl rfl (by decide) (List.cons_ne_nil _ _)
  constructor
  · exact h.2.1
  · intro he
    have hall := h.1.mp he
    exact absurd (hall ("shop", envDbOk) (List.mem_cons_self _ _)) (by decide)

/-! ### C6: retention GC -/

/-- The old-backup predicate of `GetBackupsOlderThan`, at the Prop level. -/
def gcOldPred (connectionID : String) (cutoff : Int) (b : Backup) : Prop :=
  b.connectionId = connectionID ∧ b.createdAt < cutoff ∧ b.status = "completed"

instance (connectionID : String) (cutoff : Int) (b : Backup) :
    Decidable (gcOldPred connectionID cutoff b) := by
  unfold gcOldPred; infer_instance

theorem mem_GetBackupsOlderThan (store : List Backup) (connectionID : String)
    (cutoff : Int) (b : Backup) :
    b ∈ GetBackupsOlderThan store connectionID cutoff ↔
      b ∈ store ∧ gcOldPred connectionID cutoff b := by
  simp [GetBackupsOlderThan, List.mem_filter, gcOldPred, and_assoc]

theorem gcStep_store_subset (env : GcEnv) (conn : StoredConnection) (s3A : Bool)
    (wi : GcWorld) (b : Backup) :
    ∀ x ∈ (gcStep env conn s3A wi b).store, x ∈ wi.store := by
  intro x hx
  unfold gcStep at hx
  dsimp only at hx
  split_ifs at hx
  · exact (List.mem_filter.mp hx).1
  · exact hx

theorem gcStep_store_keep (env : GcEnv) (conn : StoredConnection) (s3A : Bool)
    (wi : GcWorld) (b : Backup) (x : Backup)
    (hx : x ∈ wi.store) (hne : x.id ≠ b.id) :
    x ∈ (gcStep env conn s3A wi b).store := by
  unfold gcStep
  dsimp only
  split_ifs
  · exact List.mem_filter.mpr ⟨hx, by simpa using hne⟩
  · exact hx

theorem gcStep_store_delete (env : GcEnv) (conn : StoredConnection) (s3A : Bool)
    (wi : GcWorld) (b : Backup) (hdel : env.recordDeleteOk b.id = true)
    (x : Backup) (hid : x.id = b.id) :
    x ∉ (gcStep env conn s3A wi b).store := by
  intro hx
  unfold gcStep at hx
  dsimp only at hx
  rw [if_pos hdel] at hx
  have hne := (List.mem_filter.mp hx).2
  simp [hid] at hne

theorem gcStep_fs_subset (env : GcEnv) (conn : StoredConnection) (s3A : Bool)
    (wi : GcWorld) (b : Backup) :
    ∀ p ∈ (gcStep env conn s3A wi b).fs, p ∈ wi.fs := by
  intro p hp
  unfold gcStep at hp
  dsimp only at hp
  split_ifs at hp
  · exact List.erase_subset _ _ hp
  · exact hp
  · exact hp

theorem gcStep_fs_keep (env : GcEnv) (conn : StoredConnection) (s3A : Bool)
    (wi : GcWorld) (b : Backup) (p : String)
    (hp : p ∈ wi.fs) (hne : p ≠ b.path) :
    p ∈ (gcStep env conn s3A wi b).fs := by
  unfold gcStep
  dsimp only
  split_ifs
  · exact (List.mem_erase_of_ne hne).mpr hp
  · exact hp
  · exact hp

theorem gcStep_fs_delete (env : GcEnv) (conn : StoredConnection) (s3A : Bool)
    (wi : GcWorld) (b : Backup) (hdel : env.localRemoveOk b.path = true)
    (hnd : wi.fs.Nodup) :
    b.path ∉ (gcStep env conn s3A wi b).fs := by
  intro hp
  unfold gcStep at hp
  dsimp only at hp
  by_cases hc : b.path ∈ wi.fs
  · rw [if_pos hc, if_pos hdel] at hp
    exact ((List.Nodup.mem_erase_iff hnd).mp hp).1 rfl
  · rw [if_neg hc] at hp
    exact hc hp

theorem gcStep_fs_nodup (env : GcEnv) (conn : StoredConnection) (s3A : Bool)
    (wi : GcWorld) (b : Backup) (hnd : wi.fs.Nodup) :
    (gcStep env conn s3A wi b).fs.Nodup := by
  unfold gcStep
  dsimp only
  split_ifs
  · exact hnd.erase _
  · exact hnd
  · exact hnd

theorem gcStep_s3_subset (env : GcEnv) (conn : StoredConnection) (s3A : Bool)
    (wi : GcWorld) (b : Backup) :
    ∀ k ∈ (gcStep env conn s3A wi b).s3Objects, k ∈ wi.s3Objects := by
  intro k hk
  unfold gcStep at hk
  dsimp only at hk
  split_ifs at hk
  · exact List.erase_subset _ _ hk
  · exact hk
  · exact hk

theorem gcStep_s3_keep (env : GcEnv) (conn : StoredConnection) (s3A : Bool)
    (wi : GcWorld) (b : Backup) (k : String)
    (hk : k ∈ wi.s3Objects) (hne : k ≠ b.s3ObjectKey.getD "") :
    k ∈ (gcStep env conn s3A wi b).s3Objects := by
  unfold gcStep
  dsimp only
  split_ifs
  · exact (List.mem_erase_of_ne hne).mpr hk
  · exact hk
  · exact hk

theorem gcStep_s3_delete (env : GcEnv) (conn : StoredConnection) (s3A : Bool)
    (wi : GcWorld) (b : Backup) (hkne : b.s3ObjectKey.getD "" ≠ "")
    (hav : s3A = true) (hflag : conn.s3CleanupOnRetention = true)
    (hdel : env.s3DeleteOk (b.s3ObjectKey.getD "") = true)
    (hnd : wi.s3Objects.Nodup) :
    b.s3ObjectKey.getD "" ∉ (gcStep env conn s3A wi b).s3Objects := by
  intro hk
  unfold gcStep at hk
  dsimp only at hk
  rw [if_pos (by simp [hkne, hav, hflag]), if_pos hdel] at hk
  exact ((List.Nodup.mem_erase_iff hnd).mp hk).1 rfl

theorem gcStep_s3_nodup (env : GcEnv) (conn : StoredConnection) (s3A : Bool)
    (wi : GcWorld) (b : Backup) (hnd : wi.s3Objects.Nodup) :
    (gcStep env conn s3A wi b).s3Objects.Nodup := by
  unfold gcStep
  dsimp only
  split_ifs
  · exact hnd.erase _
  · exact hnd
  · exact hnd

theorem gcStep_s3_unchanged (env : GcEnv) (conn : StoredConnection) (s3A : Bool)
    (wi : GcWorld) (b : Backup)
    (h : s3A = false ∨ conn.s3CleanupOnRetention = false) :
    (gcStep env conn s3A wi b).s3Objects = wi.s3Objects := by
  unfold gcStep
  dsimp only
  rw [if_neg]
  intro hc
  simp only [Bool.and_eq_true] at hc
  rcases h with h | h
  · rw [h] at hc; simpa using hc.1.2
  · rw [h] at hc; simpa using hc.2

theorem gcLoop_store_subset (env : GcEnv) (conn : StoredConnection) (s3A : Bool) :
    ∀ (bs : List Backup) (wi : GcWorld) (x : Backup),
      x ∈ (bs.foldl (gcStep env conn s3A) wi).store → x ∈ wi.store := by
  intro bs
  induction bs with
  | nil => intro wi x hx; simpa using hx
  | cons b bs ih =>
    intro wi x hx
    rw [List.foldl_cons] at hx
    exact gcStep_store_subset env conn s3A wi b x (ih _ x hx)

theorem gcLoop_store_keep (env : GcEnv) (conn : StoredConnection) (s3A : Bool) :
    ∀ (bs : List Backup) (wi : GcWorld) (x : Backup),
      x ∈ wi.store → (∀ b ∈ bs, x.id ≠ b.id) →
      x ∈ (bs.foldl (gcStep env conn s3A) wi).store := by
  intro bs
  induction bs with
  | nil => intro wi x hx _; simpa using hx
  | cons b bs ih =>
    intro wi x hx hne
    rw [List.foldl_cons]
    exact ih _ x
      (gcStep_store_keep env conn s3A wi b x hx (hne b (List.mem_cons_self b bs)))
      (fun b2 hb2 => hne b2 (List.mem_cons_of_mem b hb2))

theorem gcLoop_store_delete (env : GcEnv) (conn : StoredConnection) (s3A : Bool)
    (hrec : ∀ s, env.recordDeleteOk s = true) :
    ∀ (bs : List Backup) (wi : GcWorld) (x : Backup),
      x ∈ bs → x ∉ (bs.foldl (gcStep env conn s3A) wi).store := by
  intro bs
  induction bs with
  | nil => intro wi x hx; cases hx
  | cons b bs ih =>
    intro wi x hx
    rw [List.foldl_cons]
    rcases List.mem_cons.mp hx with hx1 | hx2
    · intro hmem
      have hx2 := gcLoop_store_subset env conn s3A bs _ x hmem
      exact gcStep_store_delete env conn s3A wi b (hrec b.id) x (by rw [hx1]) hx2
    · exact ih _ x hx2

theorem gcLoop_fs_subset (env : GcEnv) (conn : StoredConnection) (s3A : Bool) :
    ∀ (bs : List Backup) (wi : GcWorld) (p : String),
      p ∈ (bs.foldl (gcStep env conn s3A) wi).fs → p ∈ wi.fs := by
  intro bs
  induction bs with
  | nil => intro wi p hp; simpa using hp
  | cons b bs ih =>
    intro wi p hp
    rw [List.foldl_cons] at hp
    exact gcStep_fs_subset env conn s3A wi b p (ih _ p hp)

theorem gcLoop_fs_keep (env : GcEnv) (conn : StoredConnection) (s3A : Bool) :
    ∀ (bs : List Backup) (wi : GcWorld) (p : String),
      p ∈ wi.fs → (∀ b ∈ bs, b.path ≠ p) →
      p ∈ (bs.foldl (gcStep env conn s3A) wi).fs := by
  intro bs
  induction bs with
  | nil => intro wi p hp _; simpa using hp
  | cons b bs ih =>
    intro wi p hp hne
    rw [List.foldl_cons]
    exact ih _ p
      (gcStep_fs_keep env conn s3A wi b p hp
        (fun h => hne b (List.mem_cons_self b bs) h.symm))
      (fun b2 hb2 => hne b2 (List.mem_cons_of_mem b hb2))

theorem gcLoop_fs_nodup (env : GcEnv) (conn : StoredConnection) (s3A : Bool) :
    ∀ (bs : List Backup) (wi : GcWorld), wi.fs.Nodup →
      (bs.foldl (gcStep env conn s3A) wi).fs.Nodup := by
  intro bs
  induction bs with
  | nil => intro wi h; simpa using h
  | cons b bs ih =>
    intro wi h
    rw [List.foldl_cons]
    exact ih _ (gcStep_fs_nodup env conn s3A wi b h)

theorem gcLoop_fs_delete (env : GcEnv) (conn : StoredConnection) (s3A : Bool)
    (hloc : ∀ s, env.localRemoveOk s = true) :
    ∀ (bs : List Backup) (wi : GcWorld), wi.fs.Nodup →
      ∀ b ∈ bs, b.path ∉ (bs.foldl (gcStep env conn s3A) wi).fs := by
  intro bs
  induction bs with
  | nil => intro wi _ b hb; cases hb
  | cons c bs ih =>
    intro wi hnd b hb
    rw [List.foldl_cons]
    rcases List.mem_cons.mp hb with hb1 | hb2
    · intro hmem
      have hp := gcLoop_fs_subset env conn s3A bs _ b.path hmem
      rw [hb1] at hp
      exact gcStep_fs_delete env conn s3A wi c (hloc c.path) hnd (hb1 ▸ hp)
    · exact ih _ (gcStep_fs_nodup env conn s3A wi c hnd) b hb2

theorem gcLoop_s3_subset (env : GcEnv) (conn : StoredConnection) (s3A : Bool) :
    ∀ (bs : List Backup) (wi : GcWorld) (k : String),
      k ∈ (bs.foldl (gcStep env conn s3A) wi).s3Objects → k ∈ wi.s3Objects := by
  intro bs
  induction bs with
  | nil => intro wi k hk; simpa using hk
  | cons b bs ih =>
    intro wi k hk
    rw [List.foldl_cons] at hk
    exact gcStep_s3_subset env conn s3A wi b k (ih _ k hk)

theorem gcLoop_s3_keep (env : GcEnv) (conn : StoredConnection) (s3A : Bool) :
    ∀ (bs : List Backup) (wi : GcWorld) (k : String),
      k ∈ wi.s3Objects → (∀ b ∈ bs, b.s3ObjectKey.getD "" ≠ k) →
      k ∈ (bs.foldl (gcStep env conn s3A) wi).s3Objects := by
  intro bs
  induction bs with
  | nil => intro wi k hk _; simpa using hk
  | cons b bs ih =>
    intro wi k hk hne
    rw [List.foldl_cons]
    exact ih _ k
      (gcStep_s3_keep env conn s3A wi b k hk
        (fun h => hne b (List.mem_cons_self b bs) h.symm))
      (fun b2 hb2 => hne b2 (List.mem_cons_of_mem b hb2))

theorem gcLoop_s3_nodup (env : GcEnv) (conn : StoredConnection) (s3A : Bool) :
    ∀ (bs : List Backup) (wi : GcWorld), wi.s3Objects.Nodup →
      (bs.foldl (gcStep env conn s3A) wi).s3Objects.Nodup := by
  intro bs
  induction bs with
  | nil => intro wi h; simpa using h
  | cons b bs ih =>
    intro wi h
    rw [List.foldl_cons]
    exact ih _ (gcStep_s3_nodup env conn s3A wi b h)

theorem gcLoop_s3_delete (env : GcEnv) (conn : StoredConnection) (s3A : Bool) :
    ∀ (bs : List Backup) (wi : GcWorld), wi.s3Objects.Nodup →
      ∀ b ∈ bs, ∀ k, b.s3ObjectKey = some k → k ≠ "" → s3A = true →
      conn.s3CleanupOnRetention = true → env.s3DeleteOk k = true →
      k ∉ (bs.foldl (gcStep env conn s3A) wi).s3Objects := by
  intro bs
  induction bs with
  | nil => intro wi _ b hb; cases hb
  | cons c bs ih =>
    intro wi hnd b hb k hk hkne hav hflag hdel
    rw [List.foldl_cons]
    rcases List.mem_cons.mp hb with hb1 | hb2
    · intro hmem
      have hkmem := gcLoop_s3_subset env conn s3A bs _ k hmem
      have hck : c.s3ObjectKey.getD "" = k := by rw [← hb1, hk]; rfl
      have := gcStep_s3_delete env conn s3A wi c (by rw [hck]; exact hkne)
        hav hflag (by rw [hck]; exact hdel) hnd
      rw [hck] at this
      exact this hkmem
    · exact ih _ (gcStep_s3_nodup env conn s3A wi c hnd) b hb2 k hk hkne hav hflag hdel

theorem gcLoop_s3_unchanged (env : GcEnv) (conn : StoredConnection) (s3A : Bool)
    (h : s3A = false ∨ conn.s3CleanupOnRetention = false) :
    ∀ (bs : List Backup) (wi : GcWorld),
      (bs.foldl (gcStep env conn s3A) wi).s3Objects = wi.s3Objects := by
  intro bs
  induction bs with
  | nil => intro wi; rfl
  | cons b bs ih =>
    intro wi
    rw [List.foldl_cons, ih, gcStep_s3_unchanged env conn s3A wi b h]

/-- **C6.** Retention GC with input `(connection_id, retention_days)`
deletes exactly the backups of that connection with `status=completed` and
`created_at` older than `now - retention_days` days: for each such backup
the S3 object is deleted iff its `s3_object_key` is set, S3 is configured
and the connection's `s3_cleanup_on_retention` flag is true (continuing on
S3 failure — the record deletions below hold for an arbitrary `s3DeleteOk`
oracle), the local file is deleted if it exists, and the backup record is
deleted; other records, files and objects are untouched, and backups with
`status=in_progress` are never deleted. -/
theorem cleanupOldBackups_spec (env : GcEnv) (conn : StoredConnection)
    (connectionID : String) (retentionDays now : Int) (w : GcWorld)
    (hconn : env.connResult = Except.ok conn)
    (hrec : ∀ s, env.recordDeleteOk s = true)
    (hloc : ∀ s, env.localRemoveOk s = true)
    (hids : (w.store.map (fun b => b.id)).Nodup)
    (hfs : w.fs.Nodup) (hs3 : w.s3Objects.Nodup) :
    (∀ b ∈ w.store, gcOldPred connectionID (now - retentionDays * 86400) b →
       b ∉ (cleanupOldBackups env connectionID retentionDays now w).store) ∧
    (∀ b ∈ w.store, ¬ gcOldPred connectionID (now - retentionDays * 86400) b →
       b ∈ (cleanupOldBackups env connectionID retentionDays now w).store) ∧
    (∀ b ∈ (cleanupOldBackups env connectionID retentionDays now w).store,
       b ∈ w.store) ∧
    (∀ b ∈ w.store, b.status = "in_progress" →
       b ∈ (cleanupOldBackups env connectionID retentionDays now w).store) ∧
    (∀ b ∈ GetBackupsOlderThan w.store connectionID (now - retentionDays * 86400),
       b.path ∈ w.fs →
       b.path ∉ (cleanupOldBackups env connectionID retentionDays now w).fs) ∧
    (∀ p ∈ w.fs,
       (∀ b ∈ GetBackupsOlderThan w.store connectionID (now - retentionDays * 86400),
         b.path ≠ p) →
       p ∈ (cleanupOldBackups env connectionID retentionDays now w).fs) ∧
    (gcS3Available env = false ∨ conn.s3CleanupOnRetention = false →
       (cleanupOldBackups env connectionID retentionDays now w).s3Objects =
         w.s3Objects) ∧
    (∀ b ∈ GetBackupsOlderThan w.store connectionID (now - retentionDays * 86400),
       ∀ k, b.s3ObjectKey = some k → k ≠ "" → gcS3Available env = true →
       conn.s3CleanupOnRetention = true → env.s3DeleteOk k = true →
       k ∉ (cleanupOldBackups env connectionID retentionDays now w).s3Objects) ∧
    (∀ k ∈ w.s3Objects,
       (∀ b ∈ GetBackupsOlderThan w.store connectionID (now - retentionDays * 86400),
         b.s3ObjectKey.getD "" ≠ k) →
       k ∈ (cleanupOldBackups env connectionID retentionDays now w).s3Objects) := by
  by_cases hold : (GetBackupsOlderThan w.store connectionID
      (now - retentionDays * 86400)).isEmpty = true
  · have hw2 : cleanupOldBackups env connectionID retentionDays now w = w := by
      unfold cleanupOldBackups
      rw [if_pos hold]
    have holdnil : GetBackupsOlderThan w.store connectionID
        (now - retentionDays * 86400) = [] := List.isEmpty_iff.mp hold
    rw [hw2]
    refine ⟨?_, fun b hb _ => hb, fun b hb => hb, fun b hb _ => hb,
      ?_, fun p hp _ => hp, fun _ => rfl, ?_, fun k hk _ => hk⟩
    · intro b hb hpred hmem
      have hbo : b ∈ GetBackupsOlderThan w.store connectionID
          (now - retentionDays * 86400) :=
        (mem_GetBackupsOlderThan w.store connectionID _ b).mpr ⟨hb, hpred⟩
      rw [holdnil] at hbo
      cases hbo
    · intro b hb
      rw [holdnil] at hb
      cases hb
    · intro b hb
      rw [holdnil] at hb
      cases hb
  · have hw2 : cleanupOldBackups env connectionID retentionDays now w =
        (GetBackupsOlderThan w.store connectionID
          (now - retentionDays * 86400)).foldl
          (gcStep env conn (gcS3Available env)) w := by
      unfold cleanupOldBackups
      rw [if_neg hold, hconn]
    rw [hw2]
    have hinj := List.inj_on_of_nodup_map hids
    refine ⟨?_, ?_, ?_, ?_, ?_, ?_, ?_, ?_, ?_⟩
    · intro b hb hpred
      exact gcLoop_store_delete env conn _ hrec _ w b
        ((mem_GetBackupsOlderThan w.store connectionID _ b).mpr ⟨hb, hpred⟩)
    · intro b hb hnp
      refine gcLoop_store_keep env conn _ _ w b hb ?_
      intro b2 hb2 heq
      obtain ⟨hb2s, hb2p⟩ := (mem_GetBackupsOlderThan w.store connectionID _ b2).mp hb2
      exact hnp (hinj hb hb2s heq ▸ hb2p)
    · intro b hb
      exact gcLoop_store_subset env conn _ _ w b hb
    · intro b hb hst
      refine gcLoop_store_keep env conn _ _ w b hb ?_
      intro b2 hb2 heq
      obtain ⟨hb2s, hb2p⟩ := (mem_GetBackupsOlderThan w.store connectionID _ b2).mp hb2
      have hbeq := hinj hb hb2s heq
      rw [hbeq] at hst
      have hcomp := hb2p.2.2
      rw [hst] at hcomp
      exact absurd hcomp (by decide)
    · intro b hb _
      exact gcLoop_fs_delete env conn _ hloc _ w hfs b hb
    · intro p hp hne
      exact gcLoop_fs_keep env conn _ _ w p hp hne
    · intro h
      exact gcLoop_s3_unchanged env conn _ h _ w
    · intro b hb k hk hkne hav hflag hdel
      exact gcLoop_s3_delete env conn _ _ w hs3 b hb k hk hkne hav hflag hdel
    · intro k hk hne
      exact gcLoop_s3_keep env conn _ _ w k hk hne

/-- Concrete GC outcomes: connection and settings reads succeed, every
delete operation succeeds. -/
def gcEnvC6 : GcEnv :=
  { connResult := Except.ok connC2, settingsResult := Except.ok usS3,
    decryptOk := true, clientOk := true,
    s3DeleteOk := fun _ => true, localRemoveOk := fun _ => true,
    recordDeleteOk := fun _ => true }

/-- A 1-day-old completed backup with an S3 object. -/
def bkOld : Backup :=
  { id := "b-old", connectionId := "c-1", scheduleId := none,
    status := "completed", path := "./backups/pg1/old.sql",
    s3ObjectKey := some "p/pg1/old.sql", size := 5, startedTime := 0,
    completedTime := some 1, createdAt := 10, updatedAt := 10 }

/-- An equally old record that is still `in_progress`. -/
def bkInProgress : Backup :=
  { id := "b-ip", connectionId := "c-1", scheduleId := none,
    status := "in_progress", path := "./backups/pg1/ip.sql",
    s3ObjectKey := none, size := 0, startedTime := 0,
    completedTime := none, createdAt := 10, updatedAt := 10 }

/-- The GC world holding both records, the old file and the old object. -/
def gcW : GcWorld :=
  { store := [bkOld, bkInProgress], fs := ["./backups/pg1/old.sql"],
    s3Objects := ["p/pg1/old.sql"] }

/-- Witness for C6 at a concrete world: the old completed backup, its file
and its S3 object are deleted; the in-progress record survives. -/
theorem cleanupOldBackups_spec_witness :
    bkOld ∉ (cleanupOldBackups gcEnvC6 "c-1" 1 100000 gcW).store ∧
    bkInProgress ∈ (cleanupOldBackups gcEnvC6 "c-1" 1 100000 gcW).store ∧
    "./backups/pg1/old.sql" ∉ (cleanupOldBackups gcEnvC6 "c-1" 1 100000 gcW).fs ∧
    "p/pg1/old.sql" ∉ (cleanupOldBackups gcEnvC6 "c-1" 1 100000 gcW).s3Objects := by
  have h := cleanupOldBackups_spec gcEnvC6 connC2 "c-1" 1 100000 gcW rfl
    (fun _ => rfl) (fun _ => rfl) (by decide) (by decide) (by decide)
  refine ⟨?_, ?_, ?_, ?_⟩
  · exact h.1 bkOld (by decide) (by decide)
  · exact h.2.2.2.1 bkInProgress (by decide) rfl
  · exact h.2.2.2.2.1 bkOld (by decide) (by decide)
  · exact h.2.2.2.2.2.2.2.1 bkOld (by decide) "p/pg1/old.sql" rfl (by decide)
      (by decide) rfl rfl

/-! ### C8: ScheduleBackup upsert -/

theorem pairwise_connectionId_map_update (l : List BackupSchedule)
    (ex upd : BackupSchedule)
    (hu : l.Pairwise (fun a b => a.connectionId ≠ b.connectionId))
    (hid : (l.map (fun s => s.id)).Nodup)
    (hexmem : ex ∈ l) (hc : upd.connectionId = ex.connectionId) :
    (l.map (fun s => if s.id = ex.id then upd else s)).Pairwise
      (fun a b => a.connectionId ≠ b.connectionId) := by
  have key : ∀ s ∈ l, (if s.id = ex.id then upd else s).connectionId = s.connectionId := by
    intro s hs
    by_cases h : s.id = ex.id
    · rw [if_pos h, hc, ← List.inj_on_of_nodup_map hid hs hexmem h]
    · rw [if_neg h]
  rw [List.pairwise_map]
  refine hu.imp_of_mem ?_
  intro a b ha hb hne
  dsimp only
  rw [key a ha, key b hb]
  exact hne

set_option maxHeartbeats 1000000 in
/-- **C8.** `ScheduleBackup` is an upsert: it rejects an invalid 6-field
cron expression with an error and changes nothing; with a valid expression
it succeeds, and if a schedule already exists for the `connection_id` it
keeps the schedule count, keeps other connections' schedules, and rewrites
that schedule in place with `enabled=true`, the new cron expression and
retention days and `next_run_time = Next(cron, now)`; otherwise it appends
exactly one fresh schedule with those fields.  In both cases at most one
schedule per connection remains. -/
theorem ScheduleBackup_upsert (parse : String → Option CronSched) (now : Int)
    (newId : String) (newEntryId : Nat) (st : SchedulerState)
    (req : ScheduleBackupRequest)
    (huniq : st.schedules.Pairwise (fun a b => a.connectionId ≠ b.connectionId))
    (hid : (st.schedules.map (fun s => s.id)).Nodup) :
    (parse req.cronSchedule = none →
      ScheduleBackup parse now newId newEntryId st req =
        (st, Except.error "invalid cron schedule")) ∧
    (∀ sched, parse req.cronSchedule = some sched →
      (ScheduleBackup parse now newId newEntryId st req).2 = Except.ok ()) ∧
    (∀ sched ex, parse req.cronSchedule = some sched →
      st.schedules.find? (fun s => s.connectionId = req.connectionId) = some ex →
      (ScheduleBackup parse now newId newEntryId st req).1.schedules.length =
        st.schedules.length ∧
      (∀ s ∈ st.schedules, s.connectionId ≠ req.connectionId →
        s ∈ (ScheduleBackup parse now newId newEntryId st req).1.schedules) ∧
      (∃ s2 ∈ (ScheduleBackup parse now newId newEntryId st req).1.schedules,
        s2.id = ex.id ∧ s2.connectionId = req.connectionId ∧
        s2.enabled = true ∧ s2.cronSchedule = req.cronSchedule ∧
        s2.retentionDays = req.retentionDays ∧
        s2.nextRunTime = some (sched.next now) ∧
        s2.lastBackupTime = ex.lastBackupTime)) ∧
    (∀ sched, parse req.cronSchedule = some sched →
      st.schedules.find? (fun s => s.connectionId = req.connectionId) = none →
      (ScheduleBackup parse now newId newEntryId st req).1.schedules =
        st.schedules ++
          [{ id := newId, connectionId := req.connectionId, enabled := true,
             cronSchedule := req.cronSchedule, retentionDays := req.retentionDays,
             nextRunTime := some (sched.next now), lastBackupTime := none,
             createdAt := now, updatedAt := now }]) ∧
    (ScheduleBackup parse now newId newEntryId st req).1.schedules.Pairwise
      (fun a b => a.connectionId ≠ b.connectionId) := by
  have hinj := List.inj_on_of_nodup_map hid
  refine ⟨?_, ?_, ?_, ?_, ?_⟩
  · intro hp
    simp only [ScheduleBackup, hp]
  · intro sched hp
    simp only [ScheduleBackup, hp]
    cases hfe : st.schedules.find? (fun s => s.connectionId = req.connectionId) <;>
      simp [hfe]
  · intro sched ex hp hfe
    have hexmem : ex ∈ st.schedules := List.mem_of_find?_eq_some hfe
    have hexconn : ex.connectionId = req.connectionId := by
      simpa using List.find?_some hfe
    simp only [ScheduleBackup, hp, hfe]
    refine ⟨List.length_map _ _, ?_, ?_⟩
    · intro s hs hneq
      have hne : s.id ≠ ex.id := by
        intro h
        exact hneq (by rw [hinj hs hexmem h]; exact hexconn)
      refine List.mem_map.mpr ⟨s, hs, ?_⟩
      dsimp only
      rw [if_neg hne]
    · refine ⟨_, List.mem_map.mpr ⟨ex, hexmem, rfl⟩, ?_⟩
      rw [if_pos (rfl : ex.id = ex.id)]
      exact ⟨rfl, hexconn, rfl, rfl, rfl, rfl, rfl⟩
  · intro sched hp hfe
    simp only [ScheduleBackup, hp, hfe]
  · cases hp : parse req.cronSchedule with
    | none => simpa [ScheduleBackup, hp] using huniq
    | some sched =>
      cases hfe : st.schedules.find? (fun s => s.connectionId = req.connectionId) with
      | none =>
        simp only [ScheduleBackup, hp, hfe]
        refine List.pairwise_append.mpr
          ⟨huniq, List.pairwise_singleton _ _, ?_⟩
        intro a ha b hb
        have hane := List.find?_eq_none.mp hfe a ha
        simp only [List.mem_singleton] at hb
        subst hb
        simpa using hane
      | some ex =>
        simp only [ScheduleBackup, hp, hfe]
        exact pairwise_connectionId_map_update st.schedules ex _ huniq hid
          (List.mem_of_find?_eq_some hfe) rfl

/-- A 6-field cron parser accepting exactly one expression, whose `Next`
adds a minute. -/
def cronParse6 : String → Option CronSched :=
  fun s => if s = "0 0 3 * * *" then some ⟨fun t => t + 60⟩ else none

/-- A pre-existing, disabled schedule for connection `c-1`. -/
def schedExisting : BackupSchedule :=
  { id := "s-1", connectionId := "c-1", enabled := false,
    cronSchedule := "0 0 2 * * *", retentionDays := 7,
    nextRunTime := none, lastBackupTime := some 5, createdAt := 0,
    updatedAt := 0 }

/-- The scheduler state holding only `schedExisting`. -/
def schedSt : SchedulerState :=
  { schedules := [schedExisting], cronEntries := [("s-1", 3)] }

/-- Witness for C8 at a concrete state: an invalid expression is rejected
without changes; a valid one re-enables and overwrites the existing
schedule for the connection. -/
theorem ScheduleBackup_upsert_witness :
    ScheduleBackup cronParse6 1000 "s-new" 7 schedSt
        { connectionId := "c-1", cronSchedule := "bogus", retentionDays := 3 } =
      (schedSt, Except.error "invalid cron schedule") ∧
    (ScheduleBackup cronParse6 1000 "s-new" 7 schedSt
        { connectionId := "c-1", cronSchedule := "0 0 3 * * *",
          retentionDays := 3 }).2 = Except.ok () ∧
    (∃ s2 ∈ (ScheduleBackup cronParse6 1000 "s-new" 7 schedSt
        { connectionId := "c-1", cronSchedule := "0 0 3 * * *",
          retentionDays := 3 }).1.schedules,
      s2.id = "s-1" ∧ s2.enabled = true ∧ s2.cronSchedule = "0 0 3 * * *" ∧
      s2.retentionDays = 3 ∧ s2.nextRunTime = some 1060) := by
  have h1 := ScheduleBackup_upsert cronParse6 1000 "s-new" 7 schedSt
    { connectionId := "c-1", cronSchedule := "bogus", retentionDays := 3 }
    (List.pairwise_singleton _ _) (by decide)
  have h2 := ScheduleBackup_upsert cronParse6 1000 "s-new" 7 schedSt
    { connectionId := "c-1", cronSchedule := "0 0 3 * * *", retentionDays := 3 }
    (List.pairwise_singleton _ _) (by decide)
  refine ⟨h1.1 rfl, h2.2.1 ⟨fun t => t + 60⟩ rfl, ?_⟩
  obtain ⟨s2, hmem, hid2, _, hen, hcron, hret, hnext, _⟩ :=
    (h2.2.2.1 ⟨fun t => t + 60⟩ schedExisting rfl rfl).2.2
  exact ⟨s2, hmem, hid2, hen, hcron, hret, hnext⟩

end Velld
